import Mathlib

/-!
Verification development for the RMSprop optimizer (`torch/optim/rmsprop.py`).

Tensors are modelled as lists of exact rationals (`List ℚ`); elementwise
torch operations become `List.map` / `List.zipWith` over rationals.  The
elementwise square root is an atomic numeric primitive of the backend, so it
is modelled as an abstract function `sq : ℚ → ℚ` threaded through every
definition; no theorem below depends on its values except where explicitly
hypothesised.  Division is rational division (with `x / 0 = 0`, which is
only ever exercised on goals where the numerator is also relevant-free).

The development follows the source file closely:
* `step1` is the loop body of `_single_tensor_rmsprop`;
* `_single_tensor_rmsprop` is the scalar engine (the Python `for` loop);
* `_multi_tensor_rmsprop` is the batched engine built from the
  `torch._foreach_*` primitives, including its early return on an empty
  batch and its in-place mutation of the gradient list under weight decay;
* `rmspropFn` is the functional dispatcher `rmsprop` (with the
  `torch.jit.is_scripting()` context modelled as a boolean flag);
* `RMSprop_init_check` is the constructor validation;
* `initState`, `gatherGroup`, `scatterGroup`, `stepGroup`, `stepOnce` and
  `runSteps` model `RMSprop.step` with its lazy per-parameter state
  dictionary, sparse-gradient rejection and per-group dispatch.
-/

namespace RmspropModel

/-- A tensor: a flat list of exact numeric entries. -/
abbrev Tensor : Type := List ℚ

/-- Elementwise in-place `x.mul_(a)`. -/
def tMulS (x : Tensor) (a : ℚ) : Tensor := x.map (fun u => u * a)

/-- Elementwise in-place `x.add_(a)` with a scalar. -/
def tAddS (x : Tensor) (a : ℚ) : Tensor := x.map (fun u => u + a)

/-- Elementwise `x.add(y, alpha=a)` / `x.add_(y, alpha=a)`: `x + a * y`. -/
def tAddAlpha (x y : Tensor) (a : ℚ) : Tensor :=
  List.zipWith (fun u v => u + a * v) x y

/-- Elementwise `x.addcmul(y, z, value=a)`: `x + a * (y * z)`. -/
def tAddcmul (x y z : Tensor) (a : ℚ) : Tensor :=
  List.zipWith3 (fun u v w => u + a * (v * w)) x y z

/-- Elementwise `x.addcdiv(y, z, value=a)`: `x + a * (y / z)`. -/
def tAddcdiv (x y z : Tensor) (a : ℚ) : Tensor :=
  List.zipWith3 (fun u v w => u + a * (v / w)) x y z

/-- Elementwise `x.sqrt()` for the abstract square-root primitive `sq`. -/
def tSqrt (sq : ℚ → ℚ) (x : Tensor) : Tensor := x.map sq

/-- Model of `torch._foreach_mul_(xs, a)` with a scalar. -/
def foreach_mul (xs : List Tensor) (a : ℚ) : List Tensor := xs.map (fun x => tMulS x a)

/-- Model of `torch._foreach_add_(xs, a)` with a scalar. -/
def foreach_add_scalar (xs : List Tensor) (a : ℚ) : List Tensor := xs.map (fun x => tAddS x a)

/-- Model of `torch._foreach_add_(xs, ys, alpha=a)`. -/
def foreach_add_alpha (xs ys : List Tensor) (a : ℚ) : List Tensor :=
  List.zipWith (fun x y => tAddAlpha x y a) xs ys

/-- Model of `torch._foreach_addcmul_(xs, ys, zs, value=a)`. -/
def foreach_addcmul (xs ys zs : List Tensor) (a : ℚ) : List Tensor :=
  List.zipWith3 (fun x y z => tAddcmul x y z a) xs ys zs

/-- Model of `torch._foreach_addcdiv_(xs, ys, zs, value=a)`. -/
def foreach_addcdiv (xs ys zs : List Tensor) (a : ℚ) : List Tensor :=
  List.zipWith3 (fun x y z => tAddcdiv x y z a) xs ys zs

/-- Model of `torch._foreach_sqrt(xs)` for the abstract square-root primitive. -/
def foreach_sqrt (sq : ℚ → ℚ) (xs : List Tensor) : List Tensor := xs.map (tSqrt sq)

/-- Final values of the five buffer lists an engine call touches: parameter
values, caller gradient buffers, square averages, gradient averages and
momentum buffers.  The Python engines mutate these in place; the model
returns their final contents. -/
structure EngineOut where
  params : List Tensor
  grads : List Tensor
  square_avgs : List Tensor
  grad_avgs : List Tensor
  momentum_buffer_list : List Tensor
deriving DecidableEq, Repr

/-- Result of one iteration of the loop body of `_single_tensor_rmsprop`
(lines 211-232 of the source): final values of the parameter, its square
average, its gradient average and its momentum buffer.  The local `grad`
rebinding (`grad = grad.add(param, alpha=weight_decay)`) is out of place, so
the caller's gradient buffer is untouched. -/
structure Step1Out where
  param : Tensor
  square_avg : Tensor
  grad_avg : Tensor
  buf : Tensor
deriving DecidableEq, Repr

/-- Loop body of `_single_tensor_rmsprop` for one parameter. -/
def step1 (lr alpha eps weight_decay momentum : ℚ) (centered : Bool) (sq : ℚ → ℚ)
    (param grad0 square_avg0 grad_avg0 buf0 : Tensor) : Step1Out :=
  let grad := if weight_decay ≠ 0 then tAddAlpha grad0 param weight_decay else grad0
  let square_avg := tAddcmul (tMulS square_avg0 alpha) grad grad (1 - alpha)
  let grad_avg := if centered then tAddAlpha (tMulS grad_avg0 alpha) grad (1 - alpha)
    else grad_avg0
  let avg := if centered then
      tAddS (tSqrt sq (tAddcmul square_avg grad_avg grad_avg (-1))) eps
    else tAddS (tSqrt sq square_avg) eps
  if 0 < momentum then
    let buf := tAddcdiv (tMulS buf0 momentum) grad avg 1
    ⟨tAddAlpha param buf (-lr), square_avg, grad_avg, buf⟩
  else
    ⟨tAddcdiv param grad avg (-lr), square_avg, grad_avg, buf0⟩

/-- The scalar engine `_single_tensor_rmsprop`: a sequential loop of `step1`
over the batch.  `grad_avgs` and `momentum_buffer_list` are only consumed at
positions where the Python code indexes them (`centered` / `momentum > 0`);
when the corresponding list is empty it is passed through unchanged, exactly
as the Python lists are left untouched. -/
def _single_tensor_rmsprop (lr alpha eps weight_decay momentum : ℚ) (centered : Bool)
    (sq : ℚ → ℚ) :
    List Tensor → List Tensor → List Tensor → List Tensor → List Tensor → EngineOut
  | p :: ps, g :: gs, v :: vs, gas, bufs =>
    let u := step1 lr alpha eps weight_decay momentum centered sq p g v (gas.headD [])
      (bufs.headD [])
    let r := _single_tensor_rmsprop lr alpha eps weight_decay momentum centered sq
      ps gs vs gas.tail bufs.tail
    { params := u.param :: r.params
      grads := g :: r.grads
      square_avgs := u.square_avg :: r.square_avgs
      grad_avgs := if gas.isEmpty then r.grad_avgs else u.grad_avg :: r.grad_avgs
      momentum_buffer_list :=
        if bufs.isEmpty then r.momentum_buffer_list else u.buf :: r.momentum_buffer_list }
  | ps, gs, vs, gas, bufs => ⟨ps, gs, vs, gas, bufs⟩

/-- Body of `_multi_tensor_rmsprop` after the empty-batch guard: the chain of
`torch._foreach_*` operations.  Note that under nonzero weight decay the
gradient list is updated by the in-place `torch._foreach_add_` and the
updated list is what the rest of the computation (and the caller's buffers)
see. -/
def _multi_tensor_body (lr alpha eps weight_decay momentum : ℚ) (centered : Bool)
    (sq : ℚ → ℚ)
    (params grads square_avgs grad_avgs momentum_buffer_list : List Tensor) : EngineOut :=
  let grads := if weight_decay ≠ 0 then foreach_add_alpha grads params weight_decay else grads
  let square_avgs := foreach_addcmul (foreach_mul square_avgs alpha) grads grads (1 - alpha)
  if centered then
    let grad_avgs := foreach_add_alpha (foreach_mul grad_avgs alpha) grads (1 - alpha)
    let avg := foreach_add_scalar
      (foreach_sqrt sq (foreach_addcmul square_avgs grad_avgs grad_avgs (-1))) eps
    if 0 < momentum then
      let momentum_buffer_list :=
        foreach_addcdiv (foreach_mul momentum_buffer_list momentum) grads avg 1
      ⟨foreach_add_alpha params momentum_buffer_list (-lr), grads, square_avgs, grad_avgs,
        momentum_buffer_list⟩
    else
      ⟨foreach_addcdiv params grads avg (-lr), grads, square_avgs, grad_avgs,
        momentum_buffer_list⟩
  else
    let avg := foreach_add_scalar (foreach_sqrt sq square_avgs) eps
    if 0 < momentum then
      let momentum_buffer_list :=
        foreach_addcdiv (foreach_mul momentum_buffer_list momentum) grads avg 1
      ⟨foreach_add_alpha params momentum_buffer_list (-lr), grads, square_avgs, grad_avgs,
        momentum_buffer_list⟩
    else
      ⟨foreach_addcdiv params grads avg (-lr), grads, square_avgs, grad_avgs,
        momentum_buffer_list⟩

/-- The batched engine `_multi_tensor_rmsprop`, including the
`if len(params) == 0: return` guard. -/
def _multi_tensor_rmsprop (lr alpha eps weight_decay momentum : ℚ) (centered : Bool)
    (sq : ℚ → ℚ)
    (params grads square_avgs grad_avgs momentum_buffer_list : List Tensor) : EngineOut :=
  if params.length = 0 then ⟨params, grads, square_avgs, grad_avgs, momentum_buffer_list⟩
  else _multi_tensor_body lr alpha eps weight_decay momentum centered sq
    params grads square_avgs grad_avgs momentum_buffer_list

/-- One group's hyperparameter record (the `defaults` dictionary of the
constructor and the per-group configuration read by `step`). -/
structure Hyper where
  lr : ℚ
  alpha : ℚ
  eps : ℚ
  weight_decay : ℚ
  momentum : ℚ
  centered : Bool
  foreach : Option Bool
deriving DecidableEq, Repr

/-- The errors the source can raise: `ValueError` on construction,
`RuntimeError` for sparse gradients, `RuntimeError` for foreach engines
under `torch.jit.is_scripting()`, and a Python `KeyError` when a state
entry lacks a buffer the configuration now requires. -/
inductive StateKey where
  | momentum_buffer : StateKey
  | grad_avg : StateKey
deriving DecidableEq, Repr

inductive OptimError where
  | invalidArgument : OptimError
  | unsupportedOperation : OptimError
  | incompatibleMode : OptimError
  | keyError : StateKey → OptimError
deriving DecidableEq, Repr

/-- Constructor validation of `RMSprop.__init__` (lines 67-82): each
hyperparameter is checked in source order, and on success the defaults
record is assembled with no other effect. -/
def RMSprop_init_check (lr alpha eps weight_decay momentum : ℚ) (centered : Bool)
    (foreach : Option Bool) : Except OptimError Hyper :=
  if ¬ 0 ≤ lr then .error .invalidArgument
  else if ¬ 0 ≤ eps then .error .invalidArgument
  else if ¬ 0 ≤ momentum then .error .invalidArgument
  else if ¬ 0 ≤ weight_decay then .error .invalidArgument
  else if ¬ 0 ≤ alpha then .error .invalidArgument
  else .ok ⟨lr, alpha, eps, weight_decay, momentum, centered, foreach⟩

/-- A gradient buffer: dense data plus the `is_sparse` flag. -/
structure Grad where
  data : Tensor
  is_sparse : Bool
deriving DecidableEq, Repr

/-- A parameter as the orchestrator sees it: its value buffer and its
optional gradient buffer. -/
structure ParamInfo where
  value : Tensor
  grad : Option Grad
deriving DecidableEq, Repr

/-- The per-parameter entry of `self.state`: the step counter, the square
average and the two optional buffers (`none` models an absent dictionary
key). -/
structure StateEntry where
  step : ℕ
  square_avg : Tensor
  momentum_buffer : Option Tensor
  grad_avg : Option Tensor
deriving DecidableEq, Repr

/-- Model of `self.state`, keyed by parameter identity (an index into the global
parameter array). -/
abbrev StateDict : Type := List (ℕ × StateEntry)

def sdFind : StateDict → ℕ → Option StateEntry
  | [], _ => none
  | (j, e) :: t, i => if j = i then some e else sdFind t i

def sdSet : StateDict → ℕ → StateEntry → StateDict
  | [], i, e => [(i, e)]
  | (j, f) :: t, i, e => if j = i then (j, e) :: t else (j, f) :: sdSet t i e

def sdModify : StateDict → ℕ → (StateEntry → StateEntry) → StateDict
  | [], _, _ => []
  | (j, e) :: t, i, f => if j = i then (j, f e) :: t else (j, e) :: sdModify t i f

/-- A parameter group: its hyperparameters and the identities of its
parameters. -/
structure Group where
  cfg : Hyper
  params : List ℕ
deriving DecidableEq, Repr

/-- Lazy state initialisation (source lines 122-128): executed only when a
parameter's state entry is entirely empty, it creates a zero step counter
and all-zero buffers shaped like the parameter, with the optional buffers
present exactly when the group configuration requires them at that moment. -/
def initState (cfg : Hyper) (p : Tensor) : StateEntry :=
  { step := 0
    square_avg := List.replicate p.length 0
    momentum_buffer :=
      if 0 < cfg.momentum then some (List.replicate p.length 0) else none
    grad_avg := if cfg.centered then some (List.replicate p.length 0) else none }

/-- Dictionary access `state[key]` for an optional buffer: raises `KeyError`
when the configuration requires the buffer but the entry lacks it. -/
def fetchOpt (need : Prop) [Decidable need] (v : Option Tensor) (key : StateKey) :
    Except OptimError (List Tensor) :=
  if need then
    match v with
    | none => .error (.keyError key)
    | some t => .ok [t]
  else .ok []

/-- The batches assembled by the gathering loop of `RMSprop.step`
(lines 103-137): parameters with gradients (as identities), their gradient
buffers, and the gathered state buffers. -/
structure Gathered where
  idxs : List ℕ
  grads : List Tensor
  square_avgs : List Tensor
  grad_avgs : List Tensor
  momentum_buffer_list : List Tensor
deriving DecidableEq, Repr

inductive GatherRes where
  | err : StateDict → OptimError → GatherRes
  | ok : StateDict → Gathered → GatherRes
deriving DecidableEq, Repr

/-- Default parameter record used for out-of-range identities. -/
def noParam : ParamInfo := ⟨[], none⟩

/-- The gathering loop of `RMSprop.step` over one group's parameters: skip
parameters without gradients, raise on sparse gradients (before touching
`self.state`), lazily initialise empty state entries, fetch the optional
buffers in source order (momentum buffer before gradient average), and
increment the step counter.  On an error the state mutations already made
for earlier parameters of the group are kept. -/
def gatherGroup (cfg : Hyper) (ps : List ParamInfo) : StateDict → List ℕ → GatherRes
  | sd, [] => .ok sd ⟨[], [], [], [], []⟩
  | sd, i :: rest =>
    let p := ps.getD i noParam
    match p.grad with
    | none => gatherGroup cfg ps sd rest
    | some gr =>
      if gr.is_sparse then .err sd .unsupportedOperation
      else
        let st := (sdFind sd i).getD (initState cfg p.value)
        match fetchOpt (0 < cfg.momentum) st.momentum_buffer .momentum_buffer with
        | .error e => .err sd e
        | .ok mbs =>
          match fetchOpt (cfg.centered = true) st.grad_avg .grad_avg with
          | .error e => .err sd e
          | .ok gas =>
            match gatherGroup cfg ps (sdSet sd i { st with step := st.step + 1 }) rest with
            | .err sd' e => .err sd' e
            | .ok sd' g =>
              .ok sd' ⟨i :: g.idxs, gr.data :: g.grads, st.square_avg :: g.square_avgs,
                gas ++ g.grad_avgs, mbs ++ g.momentum_buffer_list⟩

/-- Write-back of the in-place buffer mutations performed by an engine: the
`j`-th gathered parameter receives the `j`-th output value, gradient,
square average and (when gathered) gradient average and momentum buffer. -/
def scatterGroup (cfg : Hyper) :
    List ParamInfo → StateDict → List ℕ →
    List Tensor → List Tensor → List Tensor → List Tensor → List Tensor →
    List ParamInfo × StateDict
  | ps, sd, [], _, _, _, _, _ => (ps, sd)
  | ps, sd, i :: rest, pvs, gvs, svs, gavs, mbs =>
    let p := ps.getD i noParam
    let ps' := ps.set i { p with value := pvs.headD [], grad := some ⟨gvs.headD [], false⟩ }
    let sd' := sdModify sd i (fun e =>
      { e with
        square_avg := svs.headD []
        grad_avg := if cfg.centered then some (gavs.headD []) else e.grad_avg
        momentum_buffer := if 0 < cfg.momentum then some (mbs.headD []) else e.momentum_buffer })
    scatterGroup cfg ps' sd' rest pvs.tail gvs.tail svs.tail
      (if cfg.centered then gavs.tail else gavs)
      (if 0 < cfg.momentum then mbs.tail else mbs)

/-- The functional dispatcher `rmsprop` (lines 156-195): `foreach = None`
resolves to `False`; a foreach engine under `torch.jit.is_scripting()`
(modelled by the flag `jit`) raises before touching any buffer; otherwise
the batched or the scalar engine runs. -/
def rmspropFn (jit : Bool) (foreach : Option Bool) (lr alpha eps weight_decay momentum : ℚ)
    (centered : Bool) (sq : ℚ → ℚ)
    (params grads square_avgs grad_avgs momentum_buffer_list : List Tensor) :
    Except OptimError EngineOut :=
  let fe := foreach.getD false
  if fe && jit then .error .incompatibleMode
  else if fe && !jit then
    .ok (_multi_tensor_rmsprop lr alpha eps weight_decay momentum centered sq
      params grads square_avgs grad_avgs momentum_buffer_list)
  else
    .ok (_single_tensor_rmsprop lr alpha eps weight_decay momentum centered sq
      params grads square_avgs grad_avgs momentum_buffer_list)

/-- Result of a `step` call: final parameter array, final state dictionary,
and the raised error if any.  Mutations made before a raise are kept. -/
structure StepResult where
  params : List ParamInfo
  state : StateDict
  error : Option OptimError
deriving DecidableEq, Repr

/-- Processing of a single group inside `RMSprop.step`: gather (mutating the
state dictionary), dispatch, and scatter the engine results back. -/
def stepGroup (sq : ℚ → ℚ) (jit : Bool) (g : Group) (ps : List ParamInfo)
    (sd : StateDict) : StepResult :=
  match gatherGroup g.cfg ps sd g.params with
  | .err sd' e => ⟨ps, sd', some e⟩
  | .ok sd' gat =>
    match rmspropFn jit g.cfg.foreach g.cfg.lr g.cfg.alpha g.cfg.eps g.cfg.weight_decay
      g.cfg.momentum g.cfg.centered sq
      (gat.idxs.map (fun i => (ps.getD i noParam).value)) gat.grads gat.square_avgs
      gat.grad_avgs gat.momentum_buffer_list with
    | .error e => ⟨ps, sd', some e⟩
    | .ok out =>
      let r := scatterGroup g.cfg ps sd' gat.idxs out.params out.grads out.square_avgs
        out.grad_avgs out.momentum_buffer_list
      ⟨r.1, r.2, none⟩

/-- One `RMSprop.step()` call: groups are processed sequentially and the
first raised error aborts the call, keeping all mutations made so far. -/
def stepOnce (sq : ℚ → ℚ) (jit : Bool) :
    List Group → List ParamInfo → StateDict → StepResult
  | [], ps, sd => ⟨ps, sd, none⟩
  | g :: gs, ps, sd =>
    let r := stepGroup sq jit g ps sd
    match r.error with
    | some _ => r
    | none => stepOnce sq jit gs r.params r.state

/-- Install one call's gradient buffers into the parameter array. -/
def setGrads (ps : List ParamInfo) (gs : List (Option Grad)) : List ParamInfo :=
  List.zipWith (fun p g => { p with grad := g }) ps gs

/-- A sequence of `step()` calls, each preceded by the caller installing
that call's gradients; a raised error ends the run. -/
def runSteps (sq : ℚ → ℚ) (jit : Bool) (groups : List Group) :
    List (List (Option Grad)) → List ParamInfo → StateDict → StepResult
  | [], ps, sd => ⟨ps, sd, none⟩
  | gs :: rest, ps, sd =>
    let r := stepOnce sq jit groups (setGrads ps gs) sd
    match r.error with
    | some _ => r
    | none => runSteps sq jit groups rest r.params r.state

/-! Derived definitions used by the statements and proofs below. -/

/-- Repeated scalar-engine steps in which the caller supplies an all-zero
gradient each time (the buffers are threaded through as `RMSprop.step`
does between calls). -/
def stepZeroIter (lr alpha eps wd mom : ℚ) (c : Bool) (sq : ℚ → ℚ) :
    ℕ → Tensor × Tensor × Tensor × Tensor → Tensor × Tensor × Tensor × Tensor
  | 0, s => s
  | t + 1, s =>
    let u := step1 lr alpha eps wd mom c sq s.1 (List.replicate s.1.length 0) s.2.1
      s.2.2.1 s.2.2.2
    stepZeroIter lr alpha eps wd mom c sq t (u.param, u.square_avg, u.grad_avg, u.buf)

/-- Hyperparameters used by concrete witnesses: the source defaults. -/
def cfg0 : Hyper := ⟨1/100, 99/100, 1/100000000, 0, 0, false, none⟩

/-- Hyperparameters for the C10 witness: unit learning rate, zero smoothing,
zero epsilon, so one step is exactly computable. -/
def cfgW : Hyper := ⟨1, 0, 0, 0, 0, false, none⟩

/-- Parameter-array access helper: fetch the parameter at index `j`. -/
def pAt (ps : List ParamInfo) (j : ℕ) : ParamInfo := ps.getD j noParam

/-- The state dictionary component of a gather result. -/
def GatherRes.sdOf : GatherRes → StateDict
  | .err sd _ => sd
  | .ok sd _ => sd

/-- The updated entry the gathering loop stores for a processed parameter:
the existing entry (or the lazily initialised one) with its step counter
incremented. -/
def bumpEntry (cfg : Hyper) (ps : List ParamInfo) (sd : StateDict) (i : ℕ) : StateEntry :=
  { (sdFind sd i).getD (initState cfg (pAt ps i).value) with
    step := ((sdFind sd i).getD (initState cfg (pAt ps i).value)).step + 1 }

/-- The current step-counter value of a parameter's entry (`0` before the
entry exists). -/
def stepCount (sd : StateDict) (i : ℕ) : ℕ := ((sdFind sd i).map StateEntry.step).getD 0

/-- Whether one call, given its gradient assignment, processes parameter
`j`: the parameter belongs to some group and the assignment gives it a
gradient. -/
def callCount (groups : List Group) (gs : List (Option Grad)) (j : ℕ) : ℕ :=
  if j ∈ groups.flatMap Group.params ∧ (gs.getD j none).isSome = true then 1 else 0

/-- Number of calls of a run that process parameter `j`. -/
def procCount (groups : List Group) (seq : List (List (Option Grad))) (j : ℕ) : ℕ :=
  if j ∈ groups.flatMap Group.params then
    seq.countP (fun gs => (gs.getD j none).isSome) else 0


/-! Cons/nil unfolding lemmas for the batched primitives. -/

@[simp] theorem foreach_mul_nil (a : ℚ) : foreach_mul [] a = [] := rfl

@[simp] theorem foreach_mul_cons (x : Tensor) (xs : List Tensor) (a : ℚ) :
    foreach_mul (x :: xs) a = tMulS x a :: foreach_mul xs a := rfl

@[simp] theorem foreach_add_scalar_nil (a : ℚ) : foreach_add_scalar [] a = [] := rfl

@[simp] theorem foreach_add_scalar_cons (x : Tensor) (xs : List Tensor) (a : ℚ) :
    foreach_add_scalar (x :: xs) a = tAddS x a :: foreach_add_scalar xs a := rfl

@[simp] theorem foreach_add_alpha_nil (ys : List Tensor) (a : ℚ) :
    foreach_add_alpha [] ys a = [] := rfl

@[simp] theorem foreach_add_alpha_cons (x y : Tensor) (xs ys : List Tensor) (a : ℚ) :
    foreach_add_alpha (x :: xs) (y :: ys) a = tAddAlpha x y a :: foreach_add_alpha xs ys a :=
  rfl

@[simp] theorem foreach_addcmul_nil (ys zs : List Tensor) (a : ℚ) :
    foreach_addcmul [] ys zs a = [] := rfl

@[simp] theorem foreach_addcmul_cons (x y z : Tensor) (xs ys zs : List Tensor) (a : ℚ) :
    foreach_addcmul (x :: xs) (y :: ys) (z :: zs) a =
      tAddcmul x y z a :: foreach_addcmul xs ys zs a := rfl

@[simp] theorem foreach_addcdiv_nil (ys zs : List Tensor) (a : ℚ) :
    foreach_addcdiv [] ys zs a = [] := rfl

@[simp] theorem foreach_addcdiv_cons (x y z : Tensor) (xs ys zs : List Tensor) (a : ℚ) :
    foreach_addcdiv (x :: xs) (y :: ys) (z :: zs) a =
      tAddcdiv x y z a :: foreach_addcdiv xs ys zs a := rfl

@[simp] theorem foreach_sqrt_nil (sq : ℚ → ℚ) : foreach_sqrt sq [] = [] := rfl

@[simp] theorem foreach_sqrt_cons (sq : ℚ → ℚ) (x : Tensor) (xs : List Tensor) :
    foreach_sqrt sq (x :: xs) = tSqrt sq x :: foreach_sqrt sq xs := rfl

/-- The batched body on an all-cons batch decomposes into the scalar loop
body `step1` on the heads followed by the batched body on the tails. -/
theorem multi_body_cons (lr alpha eps wd mom : ℚ) (c : Bool) (sq : ℚ → ℚ)
    (p g v ga b : Tensor) (ps gs vs gas bs : List Tensor) :
    _multi_tensor_body lr alpha eps wd mom c sq (p :: ps) (g :: gs) (v :: vs)
      (ga :: gas) (b :: bs) =
    { params := (step1 lr alpha eps wd mom c sq p g v ga b).param ::
        (_multi_tensor_body lr alpha eps wd mom c sq ps gs vs gas bs).params
      grads := (if wd ≠ 0 then tAddAlpha g p wd else g) ::
        (_multi_tensor_body lr alpha eps wd mom c sq ps gs vs gas bs).grads
      square_avgs := (step1 lr alpha eps wd mom c sq p g v ga b).square_avg ::
        (_multi_tensor_body lr alpha eps wd mom c sq ps gs vs gas bs).square_avgs
      grad_avgs := (step1 lr alpha eps wd mom c sq p g v ga b).grad_avg ::
        (_multi_tensor_body lr alpha eps wd mom c sq ps gs vs gas bs).grad_avgs
      momentum_buffer_list := (step1 lr alpha eps wd mom c sq p g v ga b).buf ::
        (_multi_tensor_body lr alpha eps wd mom c sq ps gs vs gas bs).momentum_buffer_list } := by
  cases c <;> by_cases hwd : wd ≠ 0 <;> by_cases hm : 0 < mom <;>
    simp [_multi_tensor_body, step1, hwd, hm]

/-- The batched body is inert on the empty batch. -/
theorem multi_body_nil (lr alpha eps wd mom : ℚ) (c : Bool) (sq : ℚ → ℚ) :
    _multi_tensor_body lr alpha eps wd mom c sq [] [] [] [] [] = ⟨[], [], [], [], []⟩ := by
  cases c <;> by_cases hwd : wd ≠ 0 <;> by_cases hm : 0 < mom <;>
    simp [_multi_tensor_body, hwd, hm]

/-- Under matching batch sizes the empty-batch guard of the batched engine
is redundant. -/
theorem multi_eq_body (lr alpha eps wd mom : ℚ) (c : Bool) (sq : ℚ → ℚ)
    (params grads square_avgs grad_avgs bufs : List Tensor)
    (hg : grads.length = params.length) (hv : square_avgs.length = params.length)
    (hga : grad_avgs.length = params.length) (hb : bufs.length = params.length) :
    _multi_tensor_rmsprop lr alpha eps wd mom c sq params grads square_avgs grad_avgs bufs =
      _multi_tensor_body lr alpha eps wd mom c sq params grads square_avgs grad_avgs bufs := by
  cases params with
  | nil =>
    rw [List.length_nil, List.length_eq_zero] at hg hv hga hb
    subst hg; subst hv; subst hga; subst hb
    simp [_multi_tensor_rmsprop, multi_body_nil]
  | cons p ps => simp [_multi_tensor_rmsprop]

/-- The scalar engine on an all-cons batch: one loop iteration on the heads
followed by the loop on the tails. -/
theorem single_cons (lr alpha eps wd mom : ℚ) (c : Bool) (sq : ℚ → ℚ)
    (p g v ga b : Tensor) (ps gs vs gas bs : List Tensor) :
    _single_tensor_rmsprop lr alpha eps wd mom c sq (p :: ps) (g :: gs) (v :: vs)
      (ga :: gas) (b :: bs) =
    { params := (step1 lr alpha eps wd mom c sq p g v ga b).param ::
        (_single_tensor_rmsprop lr alpha eps wd mom c sq ps gs vs gas bs).params
      grads := g :: (_single_tensor_rmsprop lr alpha eps wd mom c sq ps gs vs gas bs).grads
      square_avgs := (step1 lr alpha eps wd mom c sq p g v ga b).square_avg ::
        (_single_tensor_rmsprop lr alpha eps wd mom c sq ps gs vs gas bs).square_avgs
      grad_avgs := (step1 lr alpha eps wd mom c sq p g v ga b).grad_avg ::
        (_single_tensor_rmsprop lr alpha eps wd mom c sq ps gs vs gas bs).grad_avgs
      momentum_buffer_list := (step1 lr alpha eps wd mom c sq p g v ga b).buf ::
        (_single_tensor_rmsprop lr alpha eps wd mom c sq ps gs vs gas bs).momentum_buffer_list
      } := by
  simp [_single_tensor_rmsprop]

/-- C1: for every batch of parameters sharing one group configuration, the
scalar engine `_single_tensor_rmsprop` and the batched engine
`_multi_tensor_rmsprop`, run from identical initial parameter, gradient,
square-average, gradient-average and momentum-buffer values with identical
hyperparameters, produce equal final parameter and accumulator values
(exact equality in the exact-arithmetic model, for every square-root
primitive). -/
theorem c1_scalar_batched_equiv (lr alpha eps wd mom : ℚ) (c : Bool) (sq : ℚ → ℚ)
    (params grads square_avgs grad_avgs bufs : List Tensor)
    (hg : grads.length = params.length) (hv : square_avgs.length = params.length)
    (hga : grad_avgs.length = params.length) (hb : bufs.length = params.length) :
    (_single_tensor_rmsprop lr alpha eps wd mom c sq params grads square_avgs grad_avgs
      bufs).params =
      (_multi_tensor_rmsprop lr alpha eps wd mom c sq params grads square_avgs grad_avgs
      bufs).params ∧
    (_single_tensor_rmsprop lr alpha eps wd mom c sq params grads square_avgs grad_avgs
      bufs).square_avgs =
      (_multi_tensor_rmsprop lr alpha eps wd mom c sq params grads square_avgs grad_avgs
      bufs).square_avgs ∧
    (_single_tensor_rmsprop lr alpha eps wd mom c sq params grads square_avgs grad_avgs
      bufs).grad_avgs =
      (_multi_tensor_rmsprop lr alpha eps wd mom c sq params grads square_avgs grad_avgs
      bufs).grad_avgs ∧
    (_single_tensor_rmsprop lr alpha eps wd mom c sq params grads square_avgs grad_avgs
      bufs).momentum_buffer_list =
      (_multi_tensor_rmsprop lr alpha eps wd mom c sq params grads square_avgs grad_avgs
      bufs).momentum_buffer_list := by
  induction params generalizing grads square_avgs grad_avgs bufs with
  | nil =>
    rw [List.length_nil, List.length_eq_zero] at hg hv hga hb
    subst hg; subst hv; subst hga; subst hb
    simp [_single_tensor_rmsprop, _multi_tensor_rmsprop]
  | cons p ps ih =>
    obtain ⟨g, gs, rfl⟩ : ∃ g gs, grads = g :: gs := by
      cases grads with
      | nil => simp at hg
      | cons g gs => exact ⟨g, gs, rfl⟩
    obtain ⟨v, vs, rfl⟩ : ∃ v vs, square_avgs = v :: vs := by
      cases square_avgs with
      | nil => simp at hv
      | cons v vs => exact ⟨v, vs, rfl⟩
    obtain ⟨ga, gas, rfl⟩ : ∃ ga gas, grad_avgs = ga :: gas := by
      cases grad_avgs with
      | nil => simp at hga
      | cons ga gas => exact ⟨ga, gas, rfl⟩
    obtain ⟨b, bs, rfl⟩ : ∃ b bs, bufs = b :: bs := by
      cases bufs with
      | nil => simp at hb
      | cons b bs => exact ⟨b, bs, rfl⟩
    simp only [List.length_cons, Nat.succ_inj] at hg hv hga hb
    rw [multi_eq_body lr alpha eps wd mom c sq _ _ _ _ _ (by simp [hg]) (by simp [hv])
      (by simp [hga]) (by simp [hb])]
    rw [multi_body_cons, single_cons,
      ← multi_eq_body lr alpha eps wd mom c sq ps gs vs gas bs hg hv hga hb]
    obtain ⟨e1, e2, e3, e4⟩ := ih gs vs gas bs hg hv hga hb
    exact ⟨by simp [e1], by simp [e2], by simp [e3], by simp [e4]⟩

/-- Witness for C1: a concrete three-parameter batch with weight decay,
momentum and centering enabled, evaluated for the identity square-root
primitive. -/
theorem c1_scalar_batched_equiv_witness :
    (_single_tensor_rmsprop (1/10) (3/4) (1/100) (1/2) (2/3) true (fun q => q)
      [[1], [2], [3]] [[4], [5], [6]] [[1], [1], [1]] [[2], [2], [2]]
      [[3], [3], [3]]).params =
      (_multi_tensor_rmsprop (1/10) (3/4) (1/100) (1/2) (2/3) true (fun q => q)
      [[1], [2], [3]] [[4], [5], [6]] [[1], [1], [1]] [[2], [2], [2]]
      [[3], [3], [3]]).params ∧
    (_single_tensor_rmsprop (1/10) (3/4) (1/100) (1/2) (2/3) true (fun q => q)
      [[1], [2], [3]] [[4], [5], [6]] [[1], [1], [1]] [[2], [2], [2]]
      [[3], [3], [3]]).square_avgs =
      (_multi_tensor_rmsprop (1/10) (3/4) (1/100) (1/2) (2/3) true (fun q => q)
      [[1], [2], [3]] [[4], [5], [6]] [[1], [1], [1]] [[2], [2], [2]]
      [[3], [3], [3]]).square_avgs ∧
    (_single_tensor_rmsprop (1/10) (3/4) (1/100) (1/2) (2/3) true (fun q => q)
      [[1], [2], [3]] [[4], [5], [6]] [[1], [1], [1]] [[2], [2], [2]]
      [[3], [3], [3]]).grad_avgs =
      (_multi_tensor_rmsprop (1/10) (3/4) (1/100) (1/2) (2/3) true (fun q => q)
      [[1], [2], [3]] [[4], [5], [6]] [[1], [1], [1]] [[2], [2], [2]]
      [[3], [3], [3]]).grad_avgs ∧
    (_single_tensor_rmsprop (1/10) (3/4) (1/100) (1/2) (2/3) true (fun q => q)
      [[1], [2], [3]] [[4], [5], [6]] [[1], [1], [1]] [[2], [2], [2]]
      [[3], [3], [3]]).momentum_buffer_list =
      (_multi_tensor_rmsprop (1/10) (3/4) (1/100) (1/2) (2/3) true (fun q => q)
      [[1], [2], [3]] [[4], [5], [6]] [[1], [1], [1]] [[2], [2], [2]]
      [[3], [3], [3]]).momentum_buffer_list :=
  c1_scalar_batched_equiv (1/10) (3/4) (1/100) (1/2) (2/3) true (fun q => q)
    [[1], [2], [3]] [[4], [5], [6]] [[1], [1], [1]] [[2], [2], [2]] [[3], [3], [3]]
    (by simp) (by simp) (by simp) (by simp)

/-- C2: one scalar-engine invocation on a single parameter performs exactly,
in order: weight decay into a gradient copy (when nonzero), the
square-average update `v1 = alpha * v + (1 - alpha) * g1 ^ 2`, the average
`sqrt(v1 - ga1 ^ 2) + eps` in centered mode (with
`ga1 = alpha * ga + (1 - alpha) * g1`) and `sqrt(v1) + eps` otherwise — the
square root applied before `eps` is added — then the momentum or plain
parameter update.  In particular, for `param = 1`, `grad = 2`, `lr = 1/10`,
`alpha = 99/100`, `eps = 1e-8` and zero initial square average, one step
yields square average `1/25 = 0.04` and parameter
`1 - (1/10) * 2 / (sqrt(1/25) + 1e-8)`. -/
theorem c2_single_step_formula :
    (∀ (lr alpha eps wd mom : ℚ) (c : Bool) (sq : ℚ → ℚ) (p g v ga b : ℚ),
      _single_tensor_rmsprop lr alpha eps wd mom c sq [[p]] [[g]] [[v]] [[ga]] [[b]] =
        (let g1 : ℚ := if wd ≠ 0 then g + wd * p else g
        let v1 : ℚ := alpha * v + (1 - alpha) * g1 ^ 2
        let ga1 : ℚ := if c then alpha * ga + (1 - alpha) * g1 else ga
        let avg : ℚ := if c then sq (v1 - ga1 ^ 2) + eps else sq v1 + eps
        let b1 : ℚ := if 0 < mom then mom * b + g1 / avg else b
        let p1 : ℚ := if 0 < mom then p - lr * b1 else p - lr * (g1 / avg)
        ⟨[[p1]], [[g]], [[v1]], [[ga1]], [[b1]]⟩)) ∧
    (∀ sq : ℚ → ℚ,
      _single_tensor_rmsprop (1/10) (99/100) (1/100000000) 0 0 false sq
        [[1]] [[2]] [[0]] [] [] =
        ⟨[[1 - (1/10) * (2 / (sq (1/25) + 1/100000000))]], [[2]], [[1/25]], [], []⟩) := by
  constructor
  · intro lr alpha eps wd mom c sq p g v ga b
    cases c <;> by_cases hwd : wd ≠ 0 <;> by_cases hm : 0 < mom <;>
      simp [_single_tensor_rmsprop, step1, tAddAlpha, tAddcmul, tAddcdiv, tMulS, tAddS,
        tSqrt, List.zipWith3, hwd, hm] <;>
      ring_nf <;> simp
  · intro sq
    simp [_single_tensor_rmsprop, step1, tAddAlpha, tAddcmul, tAddcdiv, tMulS, tAddS,
      tSqrt, List.zipWith3]
    ring_nf
    simp

/-! Length and replicate helpers for the elementwise operations. -/

theorem length_zipWith3 (f : α → β → γ → δ) :
    ∀ (as : List α) (bs : List β) (cs : List γ),
      (List.zipWith3 f as bs cs).length = min as.length (min bs.length cs.length)
  | [], _, _ => by simp [List.zipWith3]
  | _ :: _, [], _ => by simp [List.zipWith3]
  | _ :: _, _ :: _, [] => by simp [List.zipWith3]
  | _ :: as, _ :: bs, _ :: cs => by
    simp [List.zipWith3, length_zipWith3 f as bs cs, Nat.succ_min_succ]

@[simp] theorem tMulS_length (x : Tensor) (a : ℚ) : (tMulS x a).length = x.length := by
  simp [tMulS]

@[simp] theorem tAddS_length (x : Tensor) (a : ℚ) : (tAddS x a).length = x.length := by
  simp [tAddS]

@[simp] theorem tSqrt_length (sq : ℚ → ℚ) (x : Tensor) : (tSqrt sq x).length = x.length := by
  simp [tSqrt]

@[simp] theorem tAddAlpha_length (x y : Tensor) (a : ℚ) :
    (tAddAlpha x y a).length = min x.length y.length := by
  simp [tAddAlpha]

@[simp] theorem tAddcmul_length (x y z : Tensor) (a : ℚ) :
    (tAddcmul x y z a).length = min x.length (min y.length z.length) := by
  simp [tAddcmul, length_zipWith3]

@[simp] theorem tAddcdiv_length (x y z : Tensor) (a : ℚ) :
    (tAddcdiv x y z a).length = min x.length (min y.length z.length) := by
  simp [tAddcdiv, length_zipWith3]

theorem zipWith_replicate_right (f : α → β → γ) (x : β) :
    ∀ as : List α, List.zipWith f as (List.replicate as.length x) = as.map (fun a => f a x)
  | [] => rfl
  | a :: as => by simp [List.replicate_succ, zipWith_replicate_right f x as]

theorem zipWith_replicate_left (f : α → β → γ) (x : α) :
    ∀ bs : List β, List.zipWith f (List.replicate bs.length x) bs = bs.map (fun b => f x b)
  | [] => rfl
  | b :: bs => by simp [List.replicate_succ, zipWith_replicate_left f x bs]

theorem zipWith3_replicate_mid (f : α → β → γ → δ) (x : β) :
    ∀ (as : List α) (cs : List γ), as.length = cs.length →
      List.zipWith3 f as (List.replicate as.length x) cs =
        List.zipWith (fun a c => f a x c) as cs
  | [], _, _ => rfl
  | a :: as, [], h => by simp at h
  | a :: as, c :: cs, h => by
    simp only [List.length_cons, List.replicate_succ, List.zipWith3, List.zipWith_cons_cons]
    rw [zipWith3_replicate_mid f x as cs (by simpa using h)]

theorem zipWith_left_eq : ∀ (as : List α) (bs : List β), bs.length = as.length →
    List.zipWith (fun a _ => a) as bs = as
  | [], _, _ => by simp
  | a :: as, [], h => by simp at h
  | a :: as, b :: bs, h => by
    simp only [List.zipWith_cons_cons, List.cons.injEq, true_and]
    exact zipWith_left_eq as bs (by simpa using h)

theorem tAddcmul_zero_pair (x : Tensor) (n : ℕ) (h : x.length = n) (a : ℚ) :
    tAddcmul x (List.replicate n 0) (List.replicate n 0) a = x := by
  subst h
  rw [tAddcmul, List.zipWith3_same_right, zipWith_replicate_right]
  simp

theorem tAddAlpha_zero_right (x : Tensor) (n : ℕ) (h : x.length = n) (a : ℚ) :
    tAddAlpha x (List.replicate n 0) a = x := by
  subst h
  rw [tAddAlpha, zipWith_replicate_right]
  simp

theorem tAddcdiv_zero_num (avg : Tensor) (n : ℕ) (h : avg.length = n) :
    tAddcdiv (List.replicate n 0) (List.replicate n 0) avg 1 = List.replicate n 0 := by
  subst h
  rw [tAddcdiv, List.zipWith3_same_left, zipWith_replicate_left]
  simp [List.eq_replicate_iff]

theorem tAddcdiv_zero_mid (p avg : Tensor) (n : ℕ) (hp : p.length = n)
    (ha : avg.length = n) (a : ℚ) :
    tAddcdiv p (List.replicate n 0) avg a = p := by
  subst hp
  rw [tAddcdiv, zipWith3_replicate_mid _ _ _ _ (by rw [ha])]
  simp only [zero_div, mul_zero, add_zero]
  exact zipWith_left_eq p avg (by rw [ha])

/-- One scalar-engine iteration with zero weight decay, an all-zero gradient
and an all-zero momentum buffer: the parameter is untouched, the square
average is scaled by `alpha`, the gradient average (in centered mode) is
scaled by `alpha`, and the momentum buffer stays all-zero. -/
theorem step1_zero_grad (lr alpha eps mom : ℚ) (c : Bool) (sq : ℚ → ℚ)
    (p v ga : Tensor) (hv : v.length = p.length) (hga : c = true → ga.length = p.length) :
    step1 lr alpha eps 0 mom c sq p (List.replicate p.length 0) v ga
      (List.replicate p.length 0) =
    ⟨p, tMulS v alpha, if c then tMulS ga alpha else ga, List.replicate p.length 0⟩ := by
  have hvlen : (tMulS v alpha).length = p.length := by simp [hv]
  have hmuls0 : tMulS (List.replicate p.length (0 : ℚ)) mom = List.replicate p.length 0 := by
    simp [tMulS, List.eq_replicate_iff]
  cases c with
  | false =>
    have havg : (tAddS (tSqrt sq (tMulS v alpha)) eps).length = p.length := by simp [hv]
    simp only [step1, ne_eq, not_true_eq_false, ite_false, Bool.false_eq_true, if_false,
      tAddcmul_zero_pair (tMulS v alpha) p.length hvlen]
    by_cases hm : 0 < mom
    · rw [if_pos hm, hmuls0, tAddcdiv_zero_num _ _ havg,
        tAddAlpha_zero_right p p.length rfl (-lr)]
    · rw [if_neg hm, tAddcdiv_zero_mid p _ p.length rfl havg (-lr)]
  | true =>
    have hgalen : (tMulS ga alpha).length = p.length := by simp [hga rfl]
    have hcen : (tAddcmul (tMulS v alpha) (tMulS ga alpha) (tMulS ga alpha) (-1)).length =
        p.length := by simp [hv, hga rfl]
    have havg : (tAddS (tSqrt sq (tAddcmul (tMulS v alpha) (tMulS ga alpha)
        (tMulS ga alpha) (-1))) eps).length = p.length := by simp [hcen]
    simp only [step1, ne_eq, not_true_eq_false, ite_false, ite_true, if_false,
      tAddcmul_zero_pair (tMulS v alpha) p.length hvlen,
      tAddAlpha_zero_right (tMulS ga alpha) p.length hgalen]
    by_cases hm : 0 < mom
    · rw [if_pos hm, hmuls0, tAddcdiv_zero_num _ _ havg,
        tAddAlpha_zero_right p p.length rfl (-lr)]
    · rw [if_neg hm, tAddcdiv_zero_mid p _ p.length rfl havg (-lr)]

/-- C7: with zero weight decay, repeatedly stepping with an identically-zero
gradient (from the all-zero momentum buffer the optimizer creates) leaves
the parameter unchanged at every step, while the square average decays
geometrically: after `t` steps it equals `alpha ^ t` times its initial
value, elementwise. -/
theorem c7_zero_grad_decay (lr alpha eps wd mom : ℚ) (c : Bool) (sq : ℚ → ℚ)
    (p v ga : Tensor) (t : ℕ) (hwd : wd = 0) (hv : v.length = p.length)
    (hga : c = true → ga.length = p.length) :
    (stepZeroIter lr alpha eps wd mom c sq t (p, v, ga, List.replicate p.length 0)).1 = p ∧
    (stepZeroIter lr alpha eps wd mom c sq t (p, v, ga, List.replicate p.length 0)).2.1 =
      v.map (fun x => alpha ^ t * x) := by
  subst hwd
  induction t generalizing v ga with
  | zero =>
    constructor
    · rfl
    · simp [stepZeroIter]
  | succ t ih =>
    have hstep := step1_zero_grad lr alpha eps mom c sq p v ga hv hga
    have hv' : (tMulS v alpha).length = p.length := by simp [hv]
    have hga' : c = true → (if c then tMulS ga alpha else ga).length = p.length := by
      intro hc
      simp [hc, hga hc]
    have := ih (tMulS v alpha) (if c then tMulS ga alpha else ga) hv' hga'
    simp only [stepZeroIter, hstep]
    refine ⟨this.1, ?_⟩
    rw [this.2]
    simp only [tMulS, List.map_map]
    refine List.map_congr_left (fun a _ => ?_)
    simp only [Function.comp_apply]
    ring

/-- Witness for C7: a two-element parameter with nonzero initial square
average, three zero-gradient steps, centered mode on. -/
theorem c7_zero_grad_decay_witness :
    (stepZeroIter 1 (1/2) (1/100) 0 0 true (fun q => q) 3
      ([3, 4], [8, 16], [1, 1], List.replicate 2 0)).1 = [3, 4] ∧
    (stepZeroIter 1 (1/2) (1/100) 0 0 true (fun q => q) 3
      ([3, 4], [8, 16], [1, 1], List.replicate 2 0)).2.1 =
      [8, 16].map (fun x => (1/2) ^ 3 * x) := by
  have h := c7_zero_grad_decay 1 (1/2) (1/100) 0 0 true (fun q => q) [3, 4] [8, 16] [1, 1] 3
    rfl (by simp) (by simp)
  simpa using h

/-- C8: constructing the optimizer fails with `InvalidArgument` if and only
if at least one of `lr`, `eps`, `momentum`, `weight_decay`, `alpha` is
negative; whenever all five are non-negative (zero included) construction
succeeds, returning exactly the defaults record and nothing else (the
validation is pure). -/
theorem c8_init_validation (lr alpha eps weight_decay momentum : ℚ) (c : Bool)
    (f : Option Bool) :
    (RMSprop_init_check lr alpha eps weight_decay momentum c f = .error .invalidArgument ↔
      lr < 0 ∨ eps < 0 ∨ momentum < 0 ∨ weight_decay < 0 ∨ alpha < 0) ∧
    (0 ≤ lr → 0 ≤ eps → 0 ≤ momentum → 0 ≤ weight_decay → 0 ≤ alpha →
      RMSprop_init_check lr alpha eps weight_decay momentum c f =
        .ok ⟨lr, alpha, eps, weight_decay, momentum, c, f⟩) := by
  constructor
  · unfold RMSprop_init_check
    split_ifs with h1 h2 h3 h4 h5 <;> simp_all [not_le, not_lt]
  · intro h1 h2 h3 h4 h5
    unfold RMSprop_init_check
    rw [if_neg (not_not_intro h1), if_neg (not_not_intro h2), if_neg (not_not_intro h3),
      if_neg (not_not_intro h4), if_neg (not_not_intro h5)]

/-- Witness for C8: the default hyperparameters construct successfully, and
a negative learning rate is rejected. -/
theorem c8_init_validation_witness :
    RMSprop_init_check (1/100) (99/100) (1/100000000) 0 0 false none =
      .ok ⟨1/100, 99/100, 1/100000000, 0, 0, false, none⟩ ∧
    RMSprop_init_check (-1) (99/100) (1/100000000) 0 0 false none =
      .error .invalidArgument :=
  ⟨(c8_init_validation (1/100) (99/100) (1/100000000) 0 0 false none).2
      (by norm_num) (by norm_num) le_rfl le_rfl (by norm_num),
    (c8_init_validation (-1) (99/100) (1/100000000) 0 0 false none).1.mpr
      (Or.inl (by norm_num))⟩

/-- C6 counterexample: with nonzero weight decay the batched engine writes
the weight-decay term through to the caller's gradient buffer (the in-place
`torch._foreach_add_(grads, params, alpha=weight_decay)`), so the gradient
buffers do not stay unchanged in the batched path. -/
theorem c6_counterexample :
    (_multi_tensor_rmsprop 1 1 0 1 0 false (fun q => q)
      [[1]] [[2]] [[0]] [] []).grads ≠ [[2]] := by
  norm_num [_multi_tensor_rmsprop, _multi_tensor_body, foreach_add_alpha, foreach_mul,
    foreach_addcmul, foreach_addcdiv, foreach_add_scalar, foreach_sqrt, tAddAlpha,
    tAddcmul, tAddcdiv, tMulS, tAddS, tSqrt, List.zipWith3]

/-- C6 amended: the scalar engine always leaves the caller's gradient
buffers unchanged (weight decay goes into a temporary copy); the batched
engine leaves them unchanged when `weight_decay = 0`, but for a nonempty
batch with `weight_decay ≠ 0` it adds `weight_decay * param` into every
gradient buffer in place. -/
theorem c6_grad_buffer_effect (lr alpha eps wd mom : ℚ) (c : Bool) (sq : ℚ → ℚ)
    (params grads square_avgs grad_avgs bufs : List Tensor) :
    (_single_tensor_rmsprop lr alpha eps wd mom c sq params grads square_avgs grad_avgs
      bufs).grads = grads ∧
    (wd = 0 →
      (_multi_tensor_rmsprop lr alpha eps wd mom c sq params grads square_avgs grad_avgs
        bufs).grads = grads) ∧
    (wd ≠ 0 → params ≠ [] →
      (_multi_tensor_rmsprop lr alpha eps wd mom c sq params grads square_avgs grad_avgs
        bufs).grads = foreach_add_alpha grads params wd) := by
  refine ⟨?_, ?_, ?_⟩
  · induction params, grads, square_avgs, grad_avgs, bufs
      using _single_tensor_rmsprop.induct lr alpha eps wd mom c sq with
    | case1 p ps g gs v vs gas bufs ih => simp [_single_tensor_rmsprop, ih]
    | case2 ps gs vs gas bufs h => simp [_single_tensor_rmsprop]
  · intro hwd
    subst hwd
    unfold _multi_tensor_rmsprop _multi_tensor_body
    norm_num
    split_ifs <;> rfl
  · intro hwd hne
    unfold _multi_tensor_rmsprop _multi_tensor_body
    rw [if_neg (by simpa using hne), if_pos hwd]
    split_ifs <;> rfl

/-- Witness for C6 amended: concrete zero- and nonzero-weight-decay batched
calls and the scalar call on the same buffers. -/
theorem c6_grad_buffer_effect_witness :
    (_single_tensor_rmsprop 1 1 0 1 0 false (fun q => q)
      [[1]] [[2]] [[0]] [] []).grads = [[2]] ∧
    (_multi_tensor_rmsprop 1 1 0 0 0 false (fun q => q)
      [[1]] [[2]] [[0]] [] []).grads = [[2]] ∧
    (_multi_tensor_rmsprop 1 1 0 1 0 false (fun q => q)
      [[1]] [[2]] [[0]] [] []).grads = foreach_add_alpha [[2]] [[1]] 1 :=
  ⟨(c6_grad_buffer_effect 1 1 0 1 0 false (fun q => q) [[1]] [[2]] [[0]] [] []).1,
    (c6_grad_buffer_effect 1 1 0 0 0 false (fun q => q) [[1]] [[2]] [[0]] [] []).2.1 rfl,
    (c6_grad_buffer_effect 1 1 0 1 0 false (fun q => q) [[1]] [[2]] [[0]] [] []).2.2
      (by norm_num) (by simp)⟩

/-- Group processing is sequential: a call on a concatenation of group
lists runs the first list to completion (or first error) and continues with
the second. -/
theorem stepOnce_append (sq : ℚ → ℚ) (jit : Bool) (gs1 gs2 : List Group) :
    ∀ (ps : List ParamInfo) (sd : StateDict),
      stepOnce sq jit (gs1 ++ gs2) ps sd =
        (match stepOnce sq jit gs1 ps sd with
          | ⟨ps1, sd1, none⟩ => stepOnce sq jit gs2 ps1 sd1
          | r => r) := by
  induction gs1 with
  | nil => intro ps sd; rfl
  | cons g gs1 ih =>
    intro ps sd
    have hcons : ∀ gs : List Group, stepOnce sq jit (g :: gs) ps sd =
        (match (stepGroup sq jit g ps sd).error with
          | some _ => stepGroup sq jit g ps sd
          | none => stepOnce sq jit gs (stepGroup sq jit g ps sd).params
              (stepGroup sq jit g ps sd).state) := fun gs => rfl
    rw [List.cons_append, hcons (gs1 ++ gs2), hcons gs1]
    rcases hsg : stepGroup sq jit g ps sd with ⟨ps1, sd1, err⟩
    cases err with
    | some e => rfl
    | none => exact ih ps1 sd1

/-- C9: whenever the batched engine is selected (`foreach = some true`)
under the scripting context that forbids it, the call raises
`IncompatibleMode` at the point of dispatch: groups before the offending
one are fully processed, the offending group's gather has run, but the
parameter buffers are exactly as the earlier groups left them — the
offending group's parameters are unmutated and no silent fallback to the
scalar engine happens. -/
theorem c9_foreach_jit (sq : ℚ → ℚ) (gs1 gs2 : List Group) (g : Group)
    (ps ps1 : List ParamInfo) (sd sdm sd1 : StateDict) (gat : Gathered)
    (hfe : g.cfg.foreach = some true)
    (h1 : stepOnce sq true gs1 ps sd = ⟨ps1, sdm, none⟩)
    (hg : gatherGroup g.cfg ps1 sdm g.params = .ok sd1 gat) :
    stepOnce sq true (gs1 ++ g :: gs2) ps sd = ⟨ps1, sd1, some .incompatibleMode⟩ := by
  rw [stepOnce_append, h1]
  show stepOnce sq true (g :: gs2) ps1 sdm = _
  unfold stepOnce stepGroup
  rw [hg]
  unfold rmspropFn
  simp [hfe]

/-- Witness for C9: one group with `foreach = some true` under scripting;
the parameter keeps its value, the state entry was initialised and counted,
and `IncompatibleMode` is raised. -/
theorem c9_foreach_jit_witness :
    stepOnce (fun q => q) true [⟨{ cfg0 with foreach := some true }, [0]⟩]
      [⟨[1], some ⟨[2], false⟩⟩] [] =
      ⟨[⟨[1], some ⟨[2], false⟩⟩], [(0, ⟨1, [0], none, none⟩)],
        some .incompatibleMode⟩ := by
  have h := c9_foreach_jit (fun q => q) [] [] ⟨{ cfg0 with foreach := some true }, [0]⟩
    [⟨[1], some ⟨[2], false⟩⟩] [⟨[1], some ⟨[2], false⟩⟩] [] []
    [(0, ⟨1, [0], none, none⟩)] ⟨[0], [[2]], [[0]], [], []⟩ rfl rfl ?_
  · simpa using h
  · norm_num [gatherGroup, cfg0, noParam, fetchOpt, initState, sdFind, sdSet]

/-- C10: lazy state initialisation runs only for an entirely empty state
entry and never backfills buffers.  Consequently a parameter whose entry
already exists but lacks `momentum_buffer` makes a `step()` call with
`momentum > 0` fail with a missing-key error while gathering (the entry,
the parameter and the whole state are left unchanged); likewise a
pre-existing entry lacking `grad_avg` makes a call with `centered = true`
fail with a missing-key error (the momentum buffer, fetched first, must be
available or not required). -/
theorem c10_no_backfill (sq : ℚ → ℚ) (jit : Bool) (cfg1 cfg2 : Hyper) (i : ℕ)
    (ps : List ParamInfo) (sd : StateDict) (e1 e2 : StateEntry) (gd : Tensor)
    (hgrad : (ps.getD i noParam).grad = some ⟨gd, false⟩) :
    (sdFind sd i = some e1 → e1.momentum_buffer = none → 0 < cfg1.momentum →
      stepOnce sq jit [⟨cfg1, [i]⟩] ps sd =
        ⟨ps, sd, some (.keyError .momentum_buffer)⟩) ∧
    (sdFind sd i = some e2 → e2.grad_avg = none → cfg2.centered = true →
      (0 < cfg2.momentum → ∃ b, e2.momentum_buffer = some b) →
      stepOnce sq jit [⟨cfg2, [i]⟩] ps sd =
        ⟨ps, sd, some (.keyError .grad_avg)⟩) := by
  constructor
  · intro h1 hmb hm
    unfold stepOnce stepGroup gatherGroup
    simp only [hgrad, h1, Option.getD_some, fetchOpt, if_pos hm, hmb, Bool.false_eq_true,
      if_false]
  · intro h2 hga hc hmb2
    unfold stepOnce stepGroup gatherGroup
    by_cases hm : 0 < cfg2.momentum
    · obtain ⟨b, hb⟩ := hmb2 hm
      simp only [hgrad, h2, Option.getD_some, fetchOpt, if_pos hm, hb, hga, hc, ite_true,
        Bool.false_eq_true, if_false]
    · simp only [hgrad, h2, Option.getD_some, fetchOpt, if_neg hm, hga, hc, ite_true,
        Bool.false_eq_true, if_false]

/-- Witness for C10: a fresh optimizer steps once with `momentum = 0` and
`centered = false`; raising the momentum (respectively enabling centering)
afterwards makes the next call fail with the corresponding missing-key
error instead of creating the buffer. -/
theorem c10_no_backfill_witness :
    stepOnce (fun q => q) false [⟨{ cfgW with momentum := 1/2 }, [0]⟩]
      (stepOnce (fun q => q) false [⟨cfgW, [0]⟩] [⟨[5], some ⟨[3], false⟩⟩] []).params
      (stepOnce (fun q => q) false [⟨cfgW, [0]⟩] [⟨[5], some ⟨[3], false⟩⟩] []).state =
      ⟨[⟨[14/3], some ⟨[3], false⟩⟩], [(0, ⟨1, [9], none, none⟩)],
        some (.keyError .momentum_buffer)⟩ ∧
    stepOnce (fun q => q) false [⟨{ cfgW with centered := true }, [0]⟩]
      (stepOnce (fun q => q) false [⟨cfgW, [0]⟩] [⟨[5], some ⟨[3], false⟩⟩] []).params
      (stepOnce (fun q => q) false [⟨cfgW, [0]⟩] [⟨[5], some ⟨[3], false⟩⟩] []).state =
      ⟨[⟨[14/3], some ⟨[3], false⟩⟩], [(0, ⟨1, [9], none, none⟩)],
        some (.keyError .grad_avg)⟩ := by
  have hfirst : stepOnce (fun q => q) false [⟨cfgW, [0]⟩] [⟨[5], some ⟨[3], false⟩⟩] [] =
      ⟨[⟨[14/3], some ⟨[3], false⟩⟩], [(0, ⟨1, [9], none, none⟩)], none⟩ := by
    norm_num [stepOnce, stepGroup, gatherGroup, scatterGroup, rmspropFn, cfgW, noParam,
      fetchOpt, initState, sdFind, sdSet, sdModify, _single_tensor_rmsprop, step1,
      tAddAlpha, tAddcmul, tAddcdiv, tMulS, tAddS, tSqrt, List.zipWith3]
  rw [hfirst]
  have h := c10_no_backfill (fun q => q) false { cfgW with momentum := 1/2 }
    { cfgW with centered := true } 0 [⟨[14/3], some ⟨[3], false⟩⟩]
    [(0, ⟨1, [9], none, none⟩)] ⟨1, [9], none, none⟩ ⟨1, [9], none, none⟩ [3] rfl
  exact ⟨h.1 rfl rfl (by norm_num [cfgW]),
    h.2 rfl rfl rfl (fun hm => absurd hm (by norm_num [cfgW]))⟩

/-! State-dictionary access lemmas. -/

theorem sdFind_sdSet_eq : ∀ (sd : StateDict) (i : ℕ) (e : StateEntry),
    sdFind (sdSet sd i e) i = some e
  | [], i, e => by simp [sdSet, sdFind]
  | (j, f) :: t, i, e => by
    by_cases h : j = i
    · simp [sdSet, sdFind, h]
    · simp [sdSet, sdFind, h, sdFind_sdSet_eq t i e]

theorem sdFind_sdSet_ne : ∀ (sd : StateDict) (i : ℕ) (e : StateEntry) (j : ℕ), i ≠ j →
    sdFind (sdSet sd i e) j = sdFind sd j
  | [], i, e, j, h => by simp [sdSet, sdFind, h]
  | (k, f) :: t, i, e, j, h => by
    by_cases hk : k = i
    · simp only [sdSet, hk, if_pos rfl, sdFind, if_neg h]
    · simp only [sdSet, if_neg hk, sdFind]
      by_cases hkj : k = j
      · simp [hkj]
      · simp [hkj, sdFind_sdSet_ne t i e j h]

theorem sdFind_sdModify_ne : ∀ (sd : StateDict) (i : ℕ) (f : StateEntry → StateEntry)
    (j : ℕ), i ≠ j → sdFind (sdModify sd i f) j = sdFind sd j
  | [], i, f, j, h => by simp [sdModify, sdFind]
  | (k, e) :: t, i, f, j, h => by
    by_cases hk : k = i
    · simp only [sdModify, hk, if_pos rfl, sdFind, if_neg h]
    · simp only [sdModify, if_neg hk, sdFind]
      by_cases hkj : k = j
      · simp [hkj]
      · simp [hkj, sdFind_sdModify_ne t i f j h]

theorem sdFind_sdModify_eq : ∀ (sd : StateDict) (i : ℕ) (f : StateEntry → StateEntry),
    sdFind (sdModify sd i f) i = (sdFind sd i).map f
  | [], i, f => by simp [sdModify, sdFind]
  | (k, e) :: t, i, f => by
    by_cases hk : k = i
    · simp [sdModify, sdFind, hk]
    · simp [sdModify, sdFind, hk, sdFind_sdModify_eq t i f]

theorem pAt_set_ne : ∀ (ps : List ParamInfo) (i : ℕ) (x : ParamInfo) (j : ℕ), i ≠ j →
    pAt (ps.set i x) j = pAt ps j
  | [], _, _, _, _ => by simp [pAt]
  | p :: t, 0, x, 0, h => absurd rfl h
  | p :: t, 0, x, j + 1, h => by simp [pAt, List.set]
  | p :: t, i + 1, x, 0, h => by simp [pAt, List.set]
  | p :: t, i + 1, x, j + 1, h => by
    simp only [pAt, List.set, List.getD_cons_succ]
    exact pAt_set_ne t i x j (by omega)

/-! Unfolding equations for one iteration of the gathering loop. -/

theorem gather_cons_none (cfg : Hyper) (ps : List ParamInfo) (sd : StateDict) (i : ℕ)
    (rest : List ℕ) (hg : (pAt ps i).grad = none) :
    gatherGroup cfg ps sd (i :: rest) = gatherGroup cfg ps sd rest := by
  conv_lhs => unfold gatherGroup
  simp only [pAt] at hg
  simp only [hg]

theorem gather_cons_sparse (cfg : Hyper) (ps : List ParamInfo) (sd : StateDict) (i : ℕ)
    (rest : List ℕ) (gr : Grad) (hg : (pAt ps i).grad = some gr)
    (hs : gr.is_sparse = true) :
    gatherGroup cfg ps sd (i :: rest) = .err sd .unsupportedOperation := by
  conv_lhs => unfold gatherGroup
  simp only [pAt] at hg
  simp only [hg, hs, if_true]

theorem gather_cons_fetch_err (cfg : Hyper) (ps : List ParamInfo) (sd : StateDict) (i : ℕ)
    (rest : List ℕ) (gr : Grad) (e : OptimError) (hg : (pAt ps i).grad = some gr)
    (hs : gr.is_sparse = false)
    (hf : (fetchOpt (0 < cfg.momentum)
        ((sdFind sd i).getD (initState cfg (pAt ps i).value)).momentum_buffer
        .momentum_buffer).bind (fun mbs =>
          (fetchOpt (cfg.centered = true)
            ((sdFind sd i).getD (initState cfg (pAt ps i).value)).grad_avg
            .grad_avg).map (fun gas => (mbs, gas))) = .error e) :
    gatherGroup cfg ps sd (i :: rest) = .err sd e := by
  conv_lhs => unfold gatherGroup
  simp only [pAt] at hg hf
  simp only [hg, hs, Bool.false_eq_true, if_false]
  cases hf1 : fetchOpt (0 < cfg.momentum)
      ((sdFind sd i).getD (initState cfg ((ps.getD i noParam).value))).momentum_buffer
      .momentum_buffer with
  | error e1 =>
    rw [hf1] at hf
    simp only [Except.bind] at hf
    cases hf
    rfl
  | ok mbs =>
    rw [hf1] at hf
    simp only [Except.bind] at hf
    cases hf2 : fetchOpt (cfg.centered = true)
        ((sdFind sd i).getD (initState cfg ((ps.getD i noParam).value))).grad_avg
        .grad_avg with
    | error e2 =>
      rw [hf2] at hf
      simp only [Except.map] at hf
      cases hf
      rfl
    | ok gas =>
      rw [hf2] at hf
      simp only [Except.map] at hf
      cases hf

theorem gather_cons_dense (cfg : Hyper) (ps : List ParamInfo) (sd : StateDict) (i : ℕ)
    (rest : List ℕ) (gr : Grad) (mbs gas : List Tensor) (hg : (pAt ps i).grad = some gr)
    (hs : gr.is_sparse = false)
    (hf1 : fetchOpt (0 < cfg.momentum)
        ((sdFind sd i).getD (initState cfg (pAt ps i).value)).momentum_buffer
        .momentum_buffer = .ok mbs)
    (hf2 : fetchOpt (cfg.centered = true)
        ((sdFind sd i).getD (initState cfg (pAt ps i).value)).grad_avg
        .grad_avg = .ok gas) :
    gatherGroup cfg ps sd (i :: rest) =
      (match gatherGroup cfg ps (sdSet sd i (bumpEntry cfg ps sd i)) rest with
        | .err sd' e => .err sd' e
        | .ok sd' g =>
          .ok sd' ⟨i :: g.idxs, gr.data :: g.grads,
            ((sdFind sd i).getD (initState cfg (pAt ps i).value)).square_avg ::
              g.square_avgs,
            gas ++ g.grad_avgs, mbs ++ g.momentum_buffer_list⟩) := by
  conv_lhs => unfold gatherGroup
  simp only [pAt] at hg hf1 hf2
  simp only [hg, hs, Bool.false_eq_true, if_false, hf1, hf2, bumpEntry, pAt]

theorem gather_frame (cfg : Hyper) (ps : List ParamInfo) :
    ∀ (idxs : List ℕ) (sd : StateDict) (j : ℕ), j ∉ idxs →
      sdFind (gatherGroup cfg ps sd idxs).sdOf j = sdFind sd j
  | [], sd, j, h => rfl
  | i :: rest, sd, j, h => by
    have hij : i ≠ j := fun hc => h (hc ▸ List.mem_cons_self i rest)
    have hrest : j ∉ rest := fun hc => h (List.mem_cons_of_mem i hc)
    cases hg : (pAt ps i).grad with
    | none =>
      rw [gather_cons_none cfg ps sd i rest hg]
      exact gather_frame cfg ps rest sd j hrest
    | some gr =>
      cases hs : gr.is_sparse with
      | true =>
        rw [gather_cons_sparse cfg ps sd i rest gr hg hs]
        rfl
      | false =>
        cases hfc : (fetchOpt (0 < cfg.momentum)
            ((sdFind sd i).getD (initState cfg (pAt ps i).value)).momentum_buffer
            .momentum_buffer).bind (fun mbs =>
              (fetchOpt (cfg.centered = true)
                ((sdFind sd i).getD (initState cfg (pAt ps i).value)).grad_avg
                .grad_avg).map (fun gas => (mbs, gas))) with
        | error e =>
          rw [gather_cons_fetch_err cfg ps sd i rest gr e hg hs hfc]
          rfl
        | ok pair =>
          obtain ⟨mbs, gas⟩ := pair
          have hf1 : fetchOpt (0 < cfg.momentum)
              ((sdFind sd i).getD (initState cfg (pAt ps i).value)).momentum_buffer
              .momentum_buffer = .ok mbs := by
            cases hx : fetchOpt (0 < cfg.momentum)
                ((sdFind sd i).getD (initState cfg (pAt ps i).value)).momentum_buffer
                .momentum_buffer with
            | error e1 => rw [hx] at hfc; simp [Except.bind] at hfc
            | ok mbs1 =>
              rw [hx] at hfc
              simp only [Except.bind] at hfc
              cases hy : fetchOpt (cfg.centered = true)
                  ((sdFind sd i).getD (initState cfg (pAt ps i).value)).grad_avg
                  .grad_avg with
              | error e2 => rw [hy] at hfc; simp [Except.map] at hfc
              | ok gas1 =>
                rw [hy] at hfc
                simp only [Except.map, Except.ok.injEq, Prod.mk.injEq] at hfc
                rw [hfc.1]
          have hf2 : fetchOpt (cfg.centered = true)
              ((sdFind sd i).getD (initState cfg (pAt ps i).value)).grad_avg
              .grad_avg = .ok gas := by
            rw [hf1] at hfc
            simp only [Except.bind] at hfc
            cases hy : fetchOpt (cfg.centered = true)
                ((sdFind sd i).getD (initState cfg (pAt ps i).value)).grad_avg
                .grad_avg with
            | error e2 => rw [hy] at hfc; simp [Except.map] at hfc
            | ok gas1 =>
              rw [hy] at hfc
              simp only [Except.map, Except.ok.injEq, Prod.mk.injEq] at hfc
              rw [hfc.2]
          rw [gather_cons_dense cfg ps sd i rest gr mbs gas hg hs hf1 hf2]
          have hrec := gather_frame cfg ps rest (sdSet sd i (bumpEntry cfg ps sd i)) j hrest
          rw [sdFind_sdSet_ne _ _ _ _ hij] at hrec
          cases hr : gatherGroup cfg ps (sdSet sd i (bumpEntry cfg ps sd i)) rest with
          | err sd' e =>
            rw [hr] at hrec
            simpa [GatherRes.sdOf] using hrec
          | ok sd' g =>
            rw [hr] at hrec
            simpa [GatherRes.sdOf] using hrec

/-! Write-back (scatter) lemmas. -/

theorem scatter_length (cfg : Hyper) : ∀ (idxs : List ℕ) (ps : List ParamInfo)
    (sd : StateDict) (pvs gvs svs gavs mbs : List Tensor),
    (scatterGroup cfg ps sd idxs pvs gvs svs gavs mbs).1.length = ps.length
  | [], ps, sd, _, _, _, _, _ => rfl
  | i :: rest, ps, sd, pvs, gvs, svs, gavs, mbs => by
    unfold scatterGroup
    rw [scatter_length cfg rest]
    exact List.length_set ps i _

theorem scatter_frame (cfg : Hyper) : ∀ (idxs : List ℕ) (ps : List ParamInfo)
    (sd : StateDict) (pvs gvs svs gavs mbs : List Tensor) (j : ℕ), j ∉ idxs →
    pAt (scatterGroup cfg ps sd idxs pvs gvs svs gavs mbs).1 j = pAt ps j ∧
    sdFind (scatterGroup cfg ps sd idxs pvs gvs svs gavs mbs).2 j = sdFind sd j
  | [], ps, sd, _, _, _, _, _, j, _ => ⟨rfl, rfl⟩
  | i :: rest, ps, sd, pvs, gvs, svs, gavs, mbs, j, h => by
    have hij : i ≠ j := fun hc => h (hc ▸ List.mem_cons_self i rest)
    have hrest : j ∉ rest := fun hc => h (List.mem_cons_of_mem i hc)
    unfold scatterGroup
    have hrec := scatter_frame cfg rest (ps.set i
        { pAt ps i with value := pvs.headD [], grad := some ⟨gvs.headD [], false⟩ })
      (sdModify sd i (fun e =>
        { e with
          square_avg := svs.headD []
          grad_avg := if cfg.centered then some (gavs.headD []) else e.grad_avg
          momentum_buffer :=
            if 0 < cfg.momentum then some (mbs.headD []) else e.momentum_buffer }))
      pvs.tail gvs.tail svs.tail (if cfg.centered then gavs.tail else gavs)
      (if 0 < cfg.momentum then mbs.tail else mbs) j hrest
    refine ⟨?_, ?_⟩
    · rw [hrec.1, pAt_set_ne ps i _ j hij]
    · rw [hrec.2, sdFind_sdModify_ne sd i _ j hij]

theorem scatter_sd_preserves (cfg : Hyper) : ∀ (idxs : List ℕ) (ps : List ParamInfo)
    (sd : StateDict) (pvs gvs svs gavs mbs : List Tensor) (j : ℕ),
    (sdFind (scatterGroup cfg ps sd idxs pvs gvs svs gavs mbs).2 j).map StateEntry.step =
      (sdFind sd j).map StateEntry.step ∧
    (sdFind (scatterGroup cfg ps sd idxs pvs gvs svs gavs mbs).2 j).isSome =
      (sdFind sd j).isSome
  | [], ps, sd, _, _, _, _, _, j => ⟨rfl, rfl⟩
  | i :: rest, ps, sd, pvs, gvs, svs, gavs, mbs, j => by
    unfold scatterGroup
    have hrec := scatter_sd_preserves cfg rest (ps.set i
        { pAt ps i with value := pvs.headD [], grad := some ⟨gvs.headD [], false⟩ })
      (sdModify sd i (fun e =>
        { e with
          square_avg := svs.headD []
          grad_avg := if cfg.centered then some (gavs.headD []) else e.grad_avg
          momentum_buffer :=
            if 0 < cfg.momentum then some (mbs.headD []) else e.momentum_buffer }))
      pvs.tail gvs.tail svs.tail (if cfg.centered then gavs.tail else gavs)
      (if 0 < cfg.momentum then mbs.tail else mbs) j
    refine ⟨?_, ?_⟩
    · rw [hrec.1]
      by_cases hij : i = j
      · subst hij
        rw [sdFind_sdModify_eq]
        cases sdFind sd i <;> rfl
      · rw [sdFind_sdModify_ne sd i _ j hij]
    · rw [hrec.2]
      by_cases hij : i = j
      · subst hij
        rw [sdFind_sdModify_eq]
        cases sdFind sd i <;> rfl
      · rw [sdFind_sdModify_ne sd i _ j hij]

/-! Gather results: collected identities come from the group list. -/

theorem bind_pair_ok {x y : Except OptimError (List Tensor)} {mbs gas : List Tensor}
    (h : x.bind (fun a => y.map (fun b => (a, b))) = .ok (mbs, gas)) :
    x = .ok mbs ∧ y = .ok gas := by
  cases x with
  | error e => simp [Except.bind] at h
  | ok a =>
    cases y with
    | error e => simp [Except.bind, Except.map] at h
    | ok b =>
      simp only [Except.bind, Except.map, Except.ok.injEq, Prod.mk.injEq] at h
      exact ⟨by rw [h.1], by rw [h.2]⟩

theorem gather_idxs_subset (cfg : Hyper) (ps : List ParamInfo) :
    ∀ (idxs : List ℕ) (sd sd' : StateDict) (gat : Gathered),
      gatherGroup cfg ps sd idxs = .ok sd' gat → gat.idxs ⊆ idxs
  | [], sd, sd', gat, h => by
    unfold gatherGroup at h
    cases h
    simp
  | i :: rest, sd, sd', gat, h => by
    cases hg : (pAt ps i).grad with
    | none =>
      rw [gather_cons_none cfg ps sd i rest hg] at h
      exact (gather_idxs_subset cfg ps rest sd sd' gat h).trans (List.subset_cons_self i rest)
    | some gr =>
      cases hs : gr.is_sparse with
      | true =>
        rw [gather_cons_sparse cfg ps sd i rest gr hg hs] at h
        cases h
      | false =>
        cases hfc : (fetchOpt (0 < cfg.momentum)
            ((sdFind sd i).getD (initState cfg (pAt ps i).value)).momentum_buffer
            .momentum_buffer).bind (fun mbs =>
              (fetchOpt (cfg.centered = true)
                ((sdFind sd i).getD (initState cfg (pAt ps i).value)).grad_avg
                .grad_avg).map (fun gas => (mbs, gas))) with
        | error e =>
          rw [gather_cons_fetch_err cfg ps sd i rest gr e hg hs hfc] at h
          cases h
        | ok pair =>
          obtain ⟨mbs, gas⟩ := pair
          obtain ⟨hf1, hf2⟩ := bind_pair_ok hfc
          rw [gather_cons_dense cfg ps sd i rest gr mbs gas hg hs hf1 hf2] at h
          cases hr : gatherGroup cfg ps (sdSet sd i (bumpEntry cfg ps sd i)) rest with
          | err sd2 e => rw [hr] at h; cases h
          | ok sd2 g =>
            rw [hr] at h
            cases h
            intro x hx
            rcases List.mem_cons.mp hx with hx | hx
            · exact hx ▸ List.mem_cons_self i rest
            · exact List.mem_cons_of_mem i
                (gather_idxs_subset cfg ps rest _ _ g hr hx)

/-- A sparse gradient encountered after a successfully gathered prefix
aborts the gathering loop with `UnsupportedOperation`, keeping exactly the
prefix's state mutations and making none for the offending parameter or any
parameter after it. -/
theorem gather_sparse_mid (cfg : Hyper) (ps : List ParamInfo) :
    ∀ (A : List ℕ) (sd sdA : StateDict) (gA : Gathered) (i : ℕ) (B : List ℕ) (gr : Grad),
      gatherGroup cfg ps sd A = .ok sdA gA → (pAt ps i).grad = some gr →
      gr.is_sparse = true →
      gatherGroup cfg ps sd (A ++ i :: B) = .err sdA .unsupportedOperation
  | [], sd, sdA, gA, i, B, gr, hA, hg, hs => by
    unfold gatherGroup at hA
    cases hA
    exact gather_cons_sparse cfg ps sd i B gr hg hs
  | a :: A, sd, sdA, gA, i, B, gr, hA, hg, hs => by
    rw [List.cons_append]
    cases hga : (pAt ps a).grad with
    | none =>
      rw [gather_cons_none cfg ps sd a (A ++ i :: B) hga]
      rw [gather_cons_none cfg ps sd a A hga] at hA
      exact gather_sparse_mid cfg ps A sd sdA gA i B gr hA hg hs
    | some gra =>
      cases hsa : gra.is_sparse with
      | true =>
        rw [gather_cons_sparse cfg ps sd a A gra hga hsa] at hA
        cases hA
      | false =>
        cases hfc : (fetchOpt (0 < cfg.momentum)
            ((sdFind sd a).getD (initState cfg (pAt ps a).value)).momentum_buffer
            .momentum_buffer).bind (fun mbs =>
              (fetchOpt (cfg.centered = true)
                ((sdFind sd a).getD (initState cfg (pAt ps a).value)).grad_avg
                .grad_avg).map (fun gas => (mbs, gas))) with
        | error e =>
          rw [gather_cons_fetch_err cfg ps sd a A gra e hga hsa hfc] at hA
          cases hA
        | ok pair =>
          obtain ⟨mbs, gas⟩ := pair
          obtain ⟨hf1, hf2⟩ := bind_pair_ok hfc
          rw [gather_cons_dense cfg ps sd a A gra mbs gas hga hsa hf1 hf2] at hA
          rw [gather_cons_dense cfg ps sd a (A ++ i :: B) gra mbs gas hga hsa hf1 hf2]
          cases hr : gatherGroup cfg ps (sdSet sd a (bumpEntry cfg ps sd a)) A with
          | err sd2 e => rw [hr] at hA; cases hA
          | ok sd2 g =>
            rw [hr] at hA
            cases hA
            rw [gather_sparse_mid cfg ps A _ _ g i B gr hr hg hs]

/-- Effect of a successful gathering pass on the state dictionary: each
parameter of the group that has a gradient gets its (lazily initialised)
entry stored back with the step counter incremented; every other entry is
untouched. -/
theorem gather_ok_effect (cfg : Hyper) (ps : List ParamInfo) :
    ∀ (idxs : List ℕ) (sd sd' : StateDict) (gat : Gathered), idxs.Nodup →
      gatherGroup cfg ps sd idxs = .ok sd' gat →
      ∀ j, (j ∈ idxs → (pAt ps j).grad ≠ none →
              sdFind sd' j = some (bumpEntry cfg ps sd j)) ∧
        (¬(j ∈ idxs ∧ (pAt ps j).grad ≠ none) → sdFind sd' j = sdFind sd j)
  | [], sd, sd', gat, hNd, h, j => by
    unfold gatherGroup at h
    cases h
    exact ⟨fun hj => absurd hj (List.not_mem_nil j), fun _ => rfl⟩
  | i :: rest, sd, sd', gat, hNd, h, j => by
    have hiNd : i ∉ rest := (List.nodup_cons.mp hNd).1
    have hrestNd : rest.Nodup := (List.nodup_cons.mp hNd).2
    cases hg : (pAt ps i).grad with
    | none =>
      rw [gather_cons_none cfg ps sd i rest hg] at h
      have ih := gather_ok_effect cfg ps rest sd sd' gat hrestNd h j
      refine ⟨fun hj hgr => ?_, fun hn => ?_⟩
      · rcases List.mem_cons.mp hj with rfl | hj
        · exact absurd hg (by simpa using hgr)
        · exact ih.1 hj hgr
      · refine ih.2 (fun hc => hn ⟨List.mem_cons_of_mem i hc.1, hc.2⟩)
    | some gr =>
      cases hs : gr.is_sparse with
      | true =>
        rw [gather_cons_sparse cfg ps sd i rest gr hg hs] at h
        cases h
      | false =>
        cases hfc : (fetchOpt (0 < cfg.momentum)
            ((sdFind sd i).getD (initState cfg (pAt ps i).value)).momentum_buffer
            .momentum_buffer).bind (fun mbs =>
              (fetchOpt (cfg.centered = true)
                ((sdFind sd i).getD (initState cfg (pAt ps i).value)).grad_avg
                .grad_avg).map (fun gas => (mbs, gas))) with
        | error e =>
          rw [gather_cons_fetch_err cfg ps sd i rest gr e hg hs hfc] at h
          cases h
        | ok pair =>
          obtain ⟨mbs, gas⟩ := pair
          obtain ⟨hf1, hf2⟩ := bind_pair_ok hfc
          rw [gather_cons_dense cfg ps sd i rest gr mbs gas hg hs hf1 hf2] at h
          cases hr : gatherGroup cfg ps (sdSet sd i (bumpEntry cfg ps sd i)) rest with
          | err sd2 e => rw [hr] at h; cases h
          | ok sd2 g =>
            rw [hr] at h
            cases h
            have ih := gather_ok_effect cfg ps rest _ _ g hrestNd hr j
            by_cases hij : j = i
            · subst hij
              refine ⟨fun _ _ => ?_, fun hn => absurd ⟨List.mem_cons_self j rest, by
                simp [hg]⟩ hn⟩
              rw [ih.2 (fun hc => hiNd hc.1), sdFind_sdSet_eq]
            · have hbump : bumpEntry cfg ps (sdSet sd i (bumpEntry cfg ps sd i)) j =
                  bumpEntry cfg ps sd j := by
                unfold bumpEntry
                rw [sdFind_sdSet_ne sd i _ j (fun hc => hij hc.symm)]
              refine ⟨fun hj hgr => ?_, fun hn => ?_⟩
              · rcases List.mem_cons.mp hj with rfl | hj
                · exact absurd rfl hij
                · rw [ih.1 hj hgr, hbump]
              · rw [ih.2 (fun hc => hn ⟨List.mem_cons_of_mem i hc.1, hc.2⟩),
                  sdFind_sdSet_ne sd i _ j (fun hc => hij hc.symm)]

/-- A group's processing touches only its own parameters: any identity
outside the group keeps its parameter record and its state entry. -/
theorem stepGroup_frame (sq : ℚ → ℚ) (jit : Bool) (g : Group) (ps : List ParamInfo)
    (sd : StateDict) (j : ℕ) (hj : j ∉ g.params) :
    pAt (stepGroup sq jit g ps sd).params j = pAt ps j ∧
    sdFind (stepGroup sq jit g ps sd).state j = sdFind sd j := by
  have hgf := gather_frame g.cfg ps g.params sd j hj
  unfold stepGroup
  cases hr : gatherGroup g.cfg ps sd g.params with
  | err sd' e =>
    rw [hr] at hgf
    dsimp only
    exact ⟨rfl, by simpa [GatherRes.sdOf] using hgf⟩
  | ok sd' gat =>
    rw [hr] at hgf
    simp only [GatherRes.sdOf] at hgf
    dsimp only
    cases hd : rmspropFn jit g.cfg.foreach g.cfg.lr g.cfg.alpha g.cfg.eps
        g.cfg.weight_decay g.cfg.momentum g.cfg.centered sq
        (gat.idxs.map (fun i => (ps.getD i noParam).value)) gat.grads gat.square_avgs
        gat.grad_avgs gat.momentum_buffer_list with
    | error e =>
      exact ⟨rfl, hgf⟩
    | ok out =>
      dsimp only
      have hsf := scatter_frame g.cfg gat.idxs ps sd' out.params out.grads
        out.square_avgs out.grad_avgs out.momentum_buffer_list j
        (fun hc => hj (gather_idxs_subset g.cfg ps g.params sd sd' gat hr hc))
      exact ⟨by rw [hsf.1], by rw [hsf.2, hgf]⟩

/-- A whole `step()` call touches only the parameters of its groups. -/
theorem stepOnce_frame (sq : ℚ → ℚ) (jit : Bool) :
    ∀ (groups : List Group) (ps : List ParamInfo) (sd : StateDict) (j : ℕ),
      j ∉ groups.flatMap Group.params →
      pAt (stepOnce sq jit groups ps sd).params j = pAt ps j ∧
      sdFind (stepOnce sq jit groups ps sd).state j = sdFind sd j
  | [], ps, sd, j, h => ⟨rfl, rfl⟩
  | g :: gs, ps, sd, j, h => by
    have hjg : j ∉ g.params := fun hc => h (by
      rw [List.flatMap_cons]
      exact List.mem_append_left _ hc)
    have hjgs : j ∉ gs.flatMap Group.params := fun hc => h (by
      rw [List.flatMap_cons]
      exact List.mem_append_right _ hc)
    have hf := stepGroup_frame sq jit g ps sd j hjg
    have hcons : stepOnce sq jit (g :: gs) ps sd =
        (match (stepGroup sq jit g ps sd).error with
          | some _ => stepGroup sq jit g ps sd
          | none => stepOnce sq jit gs (stepGroup sq jit g ps sd).params
              (stepGroup sq jit g ps sd).state) := rfl
    rw [hcons]
    cases herr : (stepGroup sq jit g ps sd).error with
    | some e => exact hf
    | none =>
      have hrec := stepOnce_frame sq jit gs (stepGroup sq jit g ps sd).params
        (stepGroup sq jit g ps sd).state j hjgs
      exact ⟨hrec.1.trans hf.1, hrec.2.trans hf.2⟩

theorem stepGroup_gather_err (sq : ℚ → ℚ) (jit : Bool) (g : Group) (ps : List ParamInfo)
    (sd sd' : StateDict) (e : OptimError)
    (h : gatherGroup g.cfg ps sd g.params = .err sd' e) :
    stepGroup sq jit g ps sd = ⟨ps, sd', some e⟩ := by
  unfold stepGroup
  simp only [h]

theorem stepOnce_cons_err (sq : ℚ → ℚ) (jit : Bool) (g : Group) (gs : List Group)
    (ps ps1 : List ParamInfo) (sd sd1 : StateDict) (e : OptimError)
    (h : stepGroup sq jit g ps sd = ⟨ps1, sd1, some e⟩) :
    stepOnce sq jit (g :: gs) ps sd = ⟨ps1, sd1, some e⟩ := by
  have hcons : stepOnce sq jit (g :: gs) ps sd =
      (match (stepGroup sq jit g ps sd).error with
        | some _ => stepGroup sq jit g ps sd
        | none => stepOnce sq jit gs (stepGroup sq jit g ps sd).params
            (stepGroup sq jit g ps sd).state) := rfl
  rw [hcons, h]

/-- C4: a `step()` call that reaches a sparse gradient raises
`UnsupportedOperation`; the offending parameter's state entry is exactly as
before the call (un-created, or unmutated if it existed) and its value is
unchanged, and no state or value is mutated for any parameter after it in
the iteration order (the rest of its group and all later groups). -/
theorem c4_sparse_rejection (sq : ℚ → ℚ) (jit : Bool) (G1 G2 : List Group) (g : Group)
    (A B : List ℕ) (i : ℕ) (gr : Grad) (ps ps1 : List ParamInfo) (sd sd1 sdA : StateDict)
    (gA : Gathered)
    (hNd : ((G1 ++ g :: G2).flatMap Group.params).Nodup)
    (hgp : g.params = A ++ i :: B)
    (h1 : stepOnce sq jit G1 ps sd = ⟨ps1, sd1, none⟩)
    (hA : gatherGroup g.cfg ps1 sd1 A = .ok sdA gA)
    (hg : (pAt ps1 i).grad = some gr) (hs : gr.is_sparse = true) :
    stepOnce sq jit (G1 ++ g :: G2) ps sd = ⟨ps1, sdA, some .unsupportedOperation⟩ ∧
    sdFind sdA i = sdFind sd i ∧ pAt ps1 i = pAt ps i ∧
    (∀ j, j ∈ B ∨ j ∈ G2.flatMap Group.params →
      sdFind sdA j = sdFind sd j ∧ pAt ps1 j = pAt ps j) := by
  have hflat : (G1 ++ g :: G2).flatMap Group.params =
      G1.flatMap Group.params ++ ((A ++ i :: B) ++ G2.flatMap Group.params) := by
    rw [List.flatMap_append, List.flatMap_cons, hgp]
  rw [hflat] at hNd
  rcases List.nodup_append.mp hNd with ⟨hn1, hn2, hd12⟩
  rcases List.nodup_append.mp hn2 with ⟨hnAB, hnG2, hdABG2⟩
  rcases List.nodup_append.mp hnAB with ⟨hnA, hnIB, hdAB⟩
  have hiA : i ∉ A := fun hiA => hdAB hiA (List.mem_cons_self i B)
  have hiG1 : i ∉ G1.flatMap Group.params := fun hc =>
    hd12 hc (List.mem_append_left _ (List.mem_append_right A (List.mem_cons_self i B)))
  have hframe : ∀ j, j ∉ G1.flatMap Group.params →
      pAt ps1 j = pAt ps j ∧ sdFind sd1 j = sdFind sd j := by
    intro j hj
    have hfr := stepOnce_frame sq jit G1 ps sd j hj
    rw [h1] at hfr
    exact hfr
  have hgatherA : ∀ j, j ∉ A → sdFind sdA j = sdFind sd1 j := by
    intro j hj
    have hfr := gather_frame g.cfg ps1 A sd1 j hj
    rw [hA] at hfr
    exact hfr
  refine ⟨?_, ?_, ?_, ?_⟩
  · rw [stepOnce_append, h1]
    refine stepOnce_cons_err sq jit g G2 ps1 ps1 sd1 sdA .unsupportedOperation ?_
    refine stepGroup_gather_err sq jit g ps1 sd1 sdA .unsupportedOperation ?_
    rw [hgp]
    exact gather_sparse_mid g.cfg ps1 A sd1 sdA gA i B gr hA hg hs
  · rw [hgatherA i hiA, (hframe i hiG1).2]
  · exact (hframe i hiG1).1
  · intro j hj
    have hjA : j ∉ A := by
      rcases hj with hj | hj
      · exact fun hjA => hdAB hjA (List.mem_cons_of_mem i hj)
      · exact fun hjA => hdABG2 (List.mem_append_left _ hjA) hj
    have hjG1 : j ∉ G1.flatMap Group.params := by
      rcases hj with hj | hj
      · exact fun hc => hd12 hc (List.mem_append_left _
          (List.mem_append_right A (List.mem_cons_of_mem i hj)))
      · exact fun hc => hd12 hc (List.mem_append_right _ hj)
    exact ⟨(hgatherA j hjA).trans (hframe j hjG1).2, (hframe j hjG1).1⟩

/-- Witness for C4: two groups; the second group's second parameter has a
sparse gradient.  The first group is updated, the first parameter of the
second group is only gathered, and the sparse parameter's entry is never
created. -/
theorem c4_sparse_rejection_witness :
    stepOnce (fun q => q) false [⟨cfgW, [0]⟩, ⟨cfgW, [1, 2]⟩]
      [⟨[1], some ⟨[2], false⟩⟩, ⟨[7], some ⟨[4], false⟩⟩, ⟨[5], some ⟨[3], true⟩⟩] [] =
      ⟨[⟨[1/2], some ⟨[2], false⟩⟩, ⟨[7], some ⟨[4], false⟩⟩, ⟨[5], some ⟨[3], true⟩⟩],
        [(0, ⟨1, [4], none, none⟩), (1, ⟨1, [0], none, none⟩)],
        some .unsupportedOperation⟩ ∧
    sdFind [(0, ⟨1, [4], none, none⟩), (1, ⟨1, [0], none, none⟩)] 2 = none := by
  have h1c : stepOnce (fun q => q) false [⟨cfgW, [0]⟩]
      [⟨[1], some ⟨[2], false⟩⟩, ⟨[7], some ⟨[4], false⟩⟩, ⟨[5], some ⟨[3], true⟩⟩] [] =
      ⟨[⟨[1/2], some ⟨[2], false⟩⟩, ⟨[7], some ⟨[4], false⟩⟩, ⟨[5], some ⟨[3], true⟩⟩],
        [(0, ⟨1, [4], none, none⟩)], none⟩ := by
    norm_num [stepOnce, stepGroup, gatherGroup, scatterGroup, rmspropFn, cfgW, noParam,
      fetchOpt, initState, sdFind, sdSet, sdModify, _single_tensor_rmsprop, step1,
      tAddAlpha, tAddcmul, tAddcdiv, tMulS, tAddS, tSqrt, List.zipWith3]
  have hAc : gatherGroup cfgW
      [⟨[1/2], some ⟨[2], false⟩⟩, ⟨[7], some ⟨[4], false⟩⟩, ⟨[5], some ⟨[3], true⟩⟩]
      [(0, ⟨1, [4], none, none⟩)] [1] =
      .ok [(0, ⟨1, [4], none, none⟩), (1, ⟨1, [0], none, none⟩)]
        ⟨[1], [[4]], [[0]], [], []⟩ := by
    norm_num [gatherGroup, cfgW, noParam, fetchOpt, initState, sdFind, sdSet]
  have h := c4_sparse_rejection (fun q => q) false [⟨cfgW, [0]⟩] [] ⟨cfgW, [1, 2]⟩
    [1] [] 2 ⟨[3], true⟩
    [⟨[1], some ⟨[2], false⟩⟩, ⟨[7], some ⟨[4], false⟩⟩, ⟨[5], some ⟨[3], true⟩⟩]
    [⟨[1/2], some ⟨[2], false⟩⟩, ⟨[7], some ⟨[4], false⟩⟩, ⟨[5], some ⟨[3], true⟩⟩]
    [] [(0, ⟨1, [4], none, none⟩)]
    [(0, ⟨1, [4], none, none⟩), (1, ⟨1, [0], none, none⟩)] ⟨[1], [[4]], [[0]], [], []⟩
    (by simp) rfl h1c hAc rfl rfl
  exact ⟨h.1, h.2.1⟩

/-- C5 counterexample: one group, first parameter dense, second sparse.
The call aborts with `UnsupportedOperation`, but the first (earlier)
parameter of the same group has NOT received its buffer update: its value
is still the initial one, although the scalar engine would have changed it.
This refutes the claim that parameters earlier in the same group as the
offending one have already received their full buffer updates. -/
theorem c5_counterexample :
    (stepOnce (fun q => q) false [⟨cfgW, [0, 1]⟩]
      [⟨[1], some ⟨[2], false⟩⟩, ⟨[5], some ⟨[3], true⟩⟩] []).error =
      some .unsupportedOperation ∧
    pAt (stepOnce (fun q => q) false [⟨cfgW, [0, 1]⟩]
      [⟨[1], some ⟨[2], false⟩⟩, ⟨[5], some ⟨[3], true⟩⟩] []).params 0 =
      ⟨[1], some ⟨[2], false⟩⟩ ∧
    (_single_tensor_rmsprop cfgW.lr cfgW.alpha cfgW.eps cfgW.weight_decay cfgW.momentum
      cfgW.centered (fun q => q) [[1]] [[2]] [[0]] [] []).params ≠ [[1]] := by
  refine ⟨?_, ?_, ?_⟩
  · norm_num [stepOnce, stepGroup, gatherGroup, cfgW, noParam, fetchOpt, initState,
      sdFind, sdSet]
  · norm_num [stepOnce, stepGroup, gatherGroup, cfgW, noParam, fetchOpt, initState,
      sdFind, sdSet, pAt]
  · norm_num [_single_tensor_rmsprop, step1, cfgW, tAddAlpha, tAddcmul, tAddcdiv, tMulS,
      tAddS, tSqrt, List.zipWith3]

/-- C5 amended: when `step()` aborts on a sparse gradient, the parameters of
groups dispatched earlier in the call keep their full updates (the final
parameter array is exactly the one the earlier groups produced; nothing is
rolled back), but the parameters earlier in the same group as the offending
one have not received any buffer update: the aborting group changes no
parameter values, and the earlier same-group parameters only had their
state entries lazily initialised (if fresh) and their step counters
incremented. -/
theorem c5_no_rollback (sq : ℚ → ℚ) (jit : Bool) (G1 G2 : List Group) (g : Group)
    (A B : List ℕ) (i : ℕ) (gr : Grad) (ps ps1 : List ParamInfo) (sd sd1 sdA : StateDict)
    (gA : Gathered) (hANd : A.Nodup)
    (hgp : g.params = A ++ i :: B)
    (h1 : stepOnce sq jit G1 ps sd = ⟨ps1, sd1, none⟩)
    (hA : gatherGroup g.cfg ps1 sd1 A = .ok sdA gA)
    (hg : (pAt ps1 i).grad = some gr) (hs : gr.is_sparse = true) :
    stepOnce sq jit (G1 ++ g :: G2) ps sd = ⟨ps1, sdA, some .unsupportedOperation⟩ ∧
    (∀ j ∈ A, (pAt ps1 j).grad ≠ none →
      sdFind sdA j = some (bumpEntry g.cfg ps1 sd1 j)) := by
  refine ⟨?_, ?_⟩
  · rw [stepOnce_append, h1]
    refine stepOnce_cons_err sq jit g G2 ps1 ps1 sd1 sdA .unsupportedOperation ?_
    refine stepGroup_gather_err sq jit g ps1 sd1 sdA .unsupportedOperation ?_
    rw [hgp]
    exact gather_sparse_mid g.cfg ps1 A sd1 sdA gA i B gr hA hg hs
  · intro j hj hgr
    exact (gather_ok_effect g.cfg ps1 A sd1 sdA gA hANd hA j).1 hj hgr

/-- Witness for C5 amended: one group with a dense then a sparse parameter;
after the abort the dense parameter's entry is only step-bumped (its square
average is still the all-zero creation value) and its value is untouched. -/
theorem c5_no_rollback_witness :
    stepOnce (fun q => q) false [⟨cfgW, [0, 1]⟩]
      [⟨[1], some ⟨[2], false⟩⟩, ⟨[5], some ⟨[3], true⟩⟩] [] =
      ⟨[⟨[1], some ⟨[2], false⟩⟩, ⟨[5], some ⟨[3], true⟩⟩],
        [(0, ⟨1, [0], none, none⟩)], some .unsupportedOperation⟩ ∧
    sdFind [(0, ⟨1, [0], none, none⟩)] 0 =
      some (bumpEntry cfgW [⟨[1], some ⟨[2], false⟩⟩, ⟨[5], some ⟨[3], true⟩⟩] [] 0) := by
  have hAc : gatherGroup cfgW [⟨[1], some ⟨[2], false⟩⟩, ⟨[5], some ⟨[3], true⟩⟩] [] [0] =
      .ok [(0, ⟨1, [0], none, none⟩)] ⟨[0], [[2]], [[0]], [], []⟩ := by
    norm_num [gatherGroup, cfgW, noParam, fetchOpt, initState, sdFind, sdSet]
  have h := c5_no_rollback (fun q => q) false [] [] ⟨cfgW, [0, 1]⟩ [0] [] 1 ⟨[3], true⟩
    [⟨[1], some ⟨[2], false⟩⟩, ⟨[5], some ⟨[3], true⟩⟩]
    [⟨[1], some ⟨[2], false⟩⟩, ⟨[5], some ⟨[3], true⟩⟩] [] []
    [(0, ⟨1, [0], none, none⟩)] ⟨[0], [[2]], [[0]], [], []⟩
    (by simp) rfl rfl hAc rfl rfl
  exact ⟨h.1, h.2 0 (by simp) (by simp [pAt, noParam])⟩

/-- Identities gathered into the batch always carry a gradient. -/
theorem gather_idxs_grad (cfg : Hyper) (ps : List ParamInfo) :
    ∀ (idxs : List ℕ) (sd sd' : StateDict) (gat : Gathered),
      gatherGroup cfg ps sd idxs = .ok sd' gat →
      ∀ j ∈ gat.idxs, (pAt ps j).grad ≠ none
  | [], sd, sd', gat, h => by
    unfold gatherGroup at h
    cases h
    simp
  | i :: rest, sd, sd', gat, h => by
    cases hg : (pAt ps i).grad with
    | none =>
      rw [gather_cons_none cfg ps sd i rest hg] at h
      exact gather_idxs_grad cfg ps rest sd sd' gat h
    | some gr =>
      cases hs : gr.is_sparse with
      | true =>
        rw [gather_cons_sparse cfg ps sd i rest gr hg hs] at h
        cases h
      | false =>
        cases hfc : (fetchOpt (0 < cfg.momentum)
            ((sdFind sd i).getD (initState cfg (pAt ps i).value)).momentum_buffer
            .momentum_buffer).bind (fun mbs =>
              (fetchOpt (cfg.centered = true)
                ((sdFind sd i).getD (initState cfg (pAt ps i).value)).grad_avg
                .grad_avg).map (fun gas => (mbs, gas))) with
        | error e =>
          rw [gather_cons_fetch_err cfg ps sd i rest gr e hg hs hfc] at h
          cases h
        | ok pair =>
          obtain ⟨mbs, gas⟩ := pair
          obtain ⟨hf1, hf2⟩ := bind_pair_ok hfc
          rw [gather_cons_dense cfg ps sd i rest gr mbs gas hg hs hf1 hf2] at h
          cases hr : gatherGroup cfg ps (sdSet sd i (bumpEntry cfg ps sd i)) rest with
          | err sd2 e => rw [hr] at h; cases h
          | ok sd2 g =>
            rw [hr] at h
            cases h
            intro j hj
            rcases List.mem_cons.mp hj with rfl | hj
            · simp [hg]
            · exact gather_idxs_grad cfg ps rest _ _ g hr j hj

theorem bumpEntry_step (cfg : Hyper) (ps : List ParamInfo) (sd : StateDict) (i : ℕ) :
    (bumpEntry cfg ps sd i).step = stepCount sd i + 1 := by
  unfold bumpEntry stepCount
  cases sdFind sd i <;> simp [initState]

theorem stepGroup_length (sq : ℚ → ℚ) (jit : Bool) (g : Group) (ps : List ParamInfo)
    (sd : StateDict) : (stepGroup sq jit g ps sd).params.length = ps.length := by
  unfold stepGroup
  cases hr : gatherGroup g.cfg ps sd g.params with
  | err sd' e => rfl
  | ok sd' gat =>
    dsimp only
    cases hd : rmspropFn jit g.cfg.foreach g.cfg.lr g.cfg.alpha g.cfg.eps
        g.cfg.weight_decay g.cfg.momentum g.cfg.centered sq
        (gat.idxs.map (fun i => (ps.getD i noParam).value)) gat.grads gat.square_avgs
        gat.grad_avgs gat.momentum_buffer_list with
    | error e => rfl
    | ok out =>
      dsimp only
      exact scatter_length g.cfg gat.idxs ps sd' out.params out.grads
        out.square_avgs out.grad_avgs out.momentum_buffer_list

theorem stepOnce_length (sq : ℚ → ℚ) (jit : Bool) :
    ∀ (groups : List Group) (ps : List ParamInfo) (sd : StateDict),
      (stepOnce sq jit groups ps sd).params.length = ps.length
  | [], ps, sd => rfl
  | g :: gs, ps, sd => by
    have hcons : stepOnce sq jit (g :: gs) ps sd =
        (match (stepGroup sq jit g ps sd).error with
          | some _ => stepGroup sq jit g ps sd
          | none => stepOnce sq jit gs (stepGroup sq jit g ps sd).params
              (stepGroup sq jit g ps sd).state) := rfl
    rw [hcons]
    cases herr : (stepGroup sq jit g ps sd).error with
    | some e => exact stepGroup_length sq jit g ps sd
    | none =>
      rw [stepOnce_length sq jit gs (stepGroup sq jit g ps sd).params
        (stepGroup sq jit g ps sd).state]
      exact stepGroup_length sq jit g ps sd

/-- Effect of a successful group dispatch on step counters and entry
existence: each group parameter with a gradient has its counter incremented
by exactly one (and its entry present afterwards); every other identity
keeps its entry untouched. -/
theorem stepGroup_ok_effect (sq : ℚ → ℚ) (jit : Bool) (g : Group) (ps : List ParamInfo)
    (sd : StateDict) (hNd : g.params.Nodup)
    (hok : (stepGroup sq jit g ps sd).error = none) :
    ∀ j, (j ∈ g.params → (pAt ps j).grad ≠ none →
           (sdFind (stepGroup sq jit g ps sd).state j).map StateEntry.step =
             some (stepCount sd j + 1)) ∧
      (¬(j ∈ g.params ∧ (pAt ps j).grad ≠ none) →
           sdFind (stepGroup sq jit g ps sd).state j = sdFind sd j) := by
  intro j
  unfold stepGroup at hok ⊢
  cases hr : gatherGroup g.cfg ps sd g.params with
  | err sd' e => rw [hr] at hok; cases hok
  | ok sd' gat =>
    rw [hr] at hok
    dsimp only at hok ⊢
    have heff := gather_ok_effect g.cfg ps g.params sd sd' gat hNd hr j
    cases hd : rmspropFn jit g.cfg.foreach g.cfg.lr g.cfg.alpha g.cfg.eps
        g.cfg.weight_decay g.cfg.momentum g.cfg.centered sq
        (gat.idxs.map (fun i => (ps.getD i noParam).value)) gat.grads gat.square_avgs
        gat.grad_avgs gat.momentum_buffer_list with
    | error e =>
      rw [hd] at hok
      simp at hok
    | ok out =>
      dsimp only
      have hpres := scatter_sd_preserves g.cfg gat.idxs ps sd' out.params out.grads
        out.square_avgs out.grad_avgs out.momentum_buffer_list j
      refine ⟨fun hj hgr => ?_, fun hn => ?_⟩
      · rw [hpres.1, heff.1 hj hgr]
        simp [bumpEntry_step]
      · have hnidx : j ∉ gat.idxs := fun hc =>
          hn ⟨gather_idxs_subset g.cfg ps g.params sd sd' gat hr hc,
            gather_idxs_grad g.cfg ps g.params sd sd' gat hr j hc⟩
        have hsf := scatter_frame g.cfg gat.idxs ps sd' out.params out.grads
          out.square_avgs out.grad_avgs out.momentum_buffer_list j hnidx
        rw [hsf.2, heff.2 hn]

/-- Effect of a successful `step()` call on step counters: every group
parameter holding a gradient is counted exactly once; every other entry is
untouched. -/
theorem stepOnce_ok_effect (sq : ℚ → ℚ) (jit : Bool) :
    ∀ (groups : List Group) (ps : List ParamInfo) (sd : StateDict),
      (groups.flatMap Group.params).Nodup →
      (stepOnce sq jit groups ps sd).error = none →
      ∀ j, (j ∈ groups.flatMap Group.params → (pAt ps j).grad ≠ none →
             (sdFind (stepOnce sq jit groups ps sd).state j).map StateEntry.step =
               some (stepCount sd j + 1)) ∧
        (¬(j ∈ groups.flatMap Group.params ∧ (pAt ps j).grad ≠ none) →
             sdFind (stepOnce sq jit groups ps sd).state j = sdFind sd j)
  | [], ps, sd, hNd, hok, j => ⟨fun hj => by simp at hj, fun _ => rfl⟩
  | g :: gs, ps, sd, hNd, hok, j => by
    rw [List.flatMap_cons] at hNd
    rcases List.nodup_append.mp hNd with ⟨hng, hngs, hdisj⟩
    have hcons : stepOnce sq jit (g :: gs) ps sd =
        (match (stepGroup sq jit g ps sd).error with
          | some _ => stepGroup sq jit g ps sd
          | none => stepOnce sq jit gs (stepGroup sq jit g ps sd).params
              (stepGroup sq jit g ps sd).state) := rfl
    rw [hcons] at hok ⊢
    cases herr : (stepGroup sq jit g ps sd).error with
    | some e =>
      rw [herr] at hok
      dsimp only at hok
      rw [herr] at hok
      exact Option.noConfusion hok
    | none =>
      rw [herr] at hok
      dsimp only at hok ⊢
      have hgeff := stepGroup_ok_effect sq jit g ps sd hng herr j
      have hrec := stepOnce_ok_effect sq jit gs (stepGroup sq jit g ps sd).params
        (stepGroup sq jit g ps sd).state hngs hok j
      have hfr := stepGroup_frame sq jit g ps sd j
      refine ⟨fun hj hgr => ?_, fun hn => ?_⟩
      · rw [List.flatMap_cons, List.mem_append] at hj
        rcases hj with hj | hj
        · have hjgs : j ∉ gs.flatMap Group.params := fun hc => hdisj hj hc
          rw [hrec.2 (fun hc => hjgs hc.1)]
          exact hgeff.1 hj hgr
        · have hjg : j ∉ g.params := fun hc => hdisj hc hj
          have hgr1 : (pAt (stepGroup sq jit g ps sd).params j).grad ≠ none := by
            rw [(hfr hjg).1]
            exact hgr
          have hsame : sdFind (stepGroup sq jit g ps sd).state j = sdFind sd j :=
            hgeff.2 (fun hc => hjg hc.1)
          have hscsame : stepCount (stepGroup sq jit g ps sd).state j = stepCount sd j := by
            unfold stepCount
            rw [hsame]
          rw [hrec.1 hj hgr1, hscsame]
      · rw [List.flatMap_cons] at hn
        have hng1 : ¬(j ∈ g.params ∧ (pAt ps j).grad ≠ none) := fun hc =>
          hn ⟨List.mem_append_left _ hc.1, hc.2⟩
        have hsame : sdFind (stepGroup sq jit g ps sd).state j = sdFind sd j :=
          hgeff.2 hng1
        have hngs1 : ¬(j ∈ gs.flatMap Group.params ∧
            (pAt (stepGroup sq jit g ps sd).params j).grad ≠ none) := by
          rintro ⟨hjgs, hgr1⟩
          have hjg : j ∉ g.params := fun hc => hdisj hc hjgs
          rw [(hfr hjg).1] at hgr1
          exact hn ⟨List.mem_append_right _ hjgs, hgr1⟩
        rw [hrec.2 hngs1, hsame]

theorem setGrads_pAt : ∀ (ps : List ParamInfo) (gs : List (Option Grad)),
    gs.length = ps.length → ∀ j,
    pAt (setGrads ps gs) j = { pAt ps j with grad := gs.getD j none }
  | [], gs, h, j => by
    rw [List.length_eq_zero.mp h]
    simp [setGrads, pAt, noParam]
  | p :: ps, [], h, j => by simp at h
  | p :: ps, og :: gs, h, j => by
    cases j with
    | zero => simp [setGrads, pAt]
    | succ j =>
      have := setGrads_pAt ps gs (by simpa using h) j
      simpa [setGrads, pAt] using this

theorem setGrads_length (ps : List ParamInfo) (gs : List (Option Grad))
    (h : gs.length = ps.length) : (setGrads ps gs).length = ps.length := by
  simp [setGrads, h]

theorem sum_callCount (groups : List Group) (j : ℕ) :
    ∀ seq : List (List (Option Grad)),
      (seq.map (fun gs => callCount groups gs j)).sum = procCount groups seq j
  | [] => by simp [procCount]
  | gs :: seq => by
    rw [List.map_cons, List.sum_cons, sum_callCount groups j seq]
    by_cases hm : j ∈ groups.flatMap Group.params
    · simp only [procCount, callCount, hm, if_true, true_and, List.countP_cons]
      by_cases hs : (gs.getD j none).isSome = true
      · simp only [hs, if_true]
        omega
      · simp only [hs, if_false]
        simp [hs]
    · simp [procCount, callCount, hm]

/-- Effect of an error-free run on step counters and entry existence. -/
theorem runSteps_ok_effect (sq : ℚ → ℚ) (jit : Bool) (groups : List Group)
    (hNd : (groups.flatMap Group.params).Nodup) :
    ∀ (seq : List (List (Option Grad))) (ps : List ParamInfo) (sd : StateDict),
      (∀ gs ∈ seq, gs.length = ps.length) →
      (runSteps sq jit groups seq ps sd).error = none →
      ∀ j, stepCount (runSteps sq jit groups seq ps sd).state j =
            stepCount sd j + (seq.map (fun gs => callCount groups gs j)).sum ∧
        (sdFind (runSteps sq jit groups seq ps sd).state j ≠ none ↔
          (sdFind sd j ≠ none ∨
            0 < (seq.map (fun gs => callCount groups gs j)).sum))
  | [], ps, sd, hlen, hok, j => by simp [runSteps]
  | gs :: seq, ps, sd, hlen, hok, j => by
    have hlg : gs.length = ps.length := hlen gs (List.mem_cons_self gs seq)
    have hcons : runSteps sq jit groups (gs :: seq) ps sd =
        (match (stepOnce sq jit groups (setGrads ps gs) sd).error with
          | some _ => stepOnce sq jit groups (setGrads ps gs) sd
          | none => runSteps sq jit groups seq
              (stepOnce sq jit groups (setGrads ps gs) sd).params
              (stepOnce sq jit groups (setGrads ps gs) sd).state) := rfl
    rw [hcons] at hok ⊢
    cases herr : (stepOnce sq jit groups (setGrads ps gs) sd).error with
    | some e =>
      rw [herr] at hok
      dsimp only at hok
      rw [herr] at hok
      exact Option.noConfusion hok
    | none =>
      rw [herr] at hok
      dsimp only at hok ⊢
      have hlen' : ∀ gs' ∈ seq,
          gs'.length = (stepOnce sq jit groups (setGrads ps gs) sd).params.length := by
        intro gs' hg'
        rw [stepOnce_length, setGrads_length ps gs hlg]
        exact hlen gs' (List.mem_cons_of_mem gs hg')
      have hrec := runSteps_ok_effect sq jit groups hNd seq
        (stepOnce sq jit groups (setGrads ps gs) sd).params
        (stepOnce sq jit groups (setGrads ps gs) sd).state hlen' hok j
      have honce := stepOnce_ok_effect sq jit groups (setGrads ps gs) sd hNd herr j
      have hgr : (pAt (setGrads ps gs) j).grad = gs.getD j none := by
        rw [setGrads_pAt ps gs hlg j]
      by_cases hproc : j ∈ groups.flatMap Group.params ∧ (gs.getD j none).isSome = true
      · have hgrne : (pAt (setGrads ps gs) j).grad ≠ none := by
          rw [hgr]
          exact Option.isSome_iff_ne_none.mp hproc.2
        have h1 := honce.1 hproc.1 hgrne
        have hcall : callCount groups gs j = 1 := by
          unfold callCount
          rw [if_pos hproc]
        have hcount : stepCount (stepOnce sq jit groups (setGrads ps gs) sd).state j =
            stepCount sd j + 1 := by
          unfold stepCount
          rw [h1]
          rfl
        have hne : sdFind (stepOnce sq jit groups (setGrads ps gs) sd).state j ≠ none := by
          intro hc
          rw [hc] at h1
          simp at h1
        refine ⟨?_, ?_⟩
        · rw [hrec.1, hcount, List.map_cons, List.sum_cons, hcall]
          omega
        · rw [hrec.2, List.map_cons, List.sum_cons, hcall]
          constructor
          · intro _
            right
            omega
          · intro _
            left
            exact hne
      · have hnp : ¬(j ∈ groups.flatMap Group.params ∧
            (pAt (setGrads ps gs) j).grad ≠ none) := by
          rintro ⟨hm, hgrne⟩
          rw [hgr] at hgrne
          exact hproc ⟨hm, Option.isSome_iff_ne_none.mpr hgrne⟩
        have hsame := honce.2 hnp
        have hcall : callCount groups gs j = 0 := by
          unfold callCount
          rw [if_neg hproc]
        have hsc : stepCount (stepOnce sq jit groups (setGrads ps gs) sd).state j =
            stepCount sd j := by
          unfold stepCount
          rw [hsame]
        refine ⟨?_, ?_⟩
        · rw [hrec.1, hsc, List.map_cons, List.sum_cons, hcall]
          omega
        · rw [hrec.2, hsame, List.map_cons, List.sum_cons, hcall]
          simp only [Nat.zero_add]

/-- C3: after every error-free sequence of `step()` calls from a fresh
optimizer, a state entry exists for a parameter if and only if at least one
call processed it (it belonged to a group and had a gradient), the step
counter equals exactly the number of such calls (it increases by one per
update and never resets), and entries are created by `initState` as
all-zero buffers shaped like the parameter, with `grad_avg` present iff the
group is centered and `momentum_buffer` present iff its momentum is
positive at creation time. -/
theorem c3_state_invariants (sq : ℚ → ℚ) (jit : Bool) (groups : List Group)
    (seq : List (List (Option Grad))) (ps : List ParamInfo)
    (hNd : (groups.flatMap Group.params).Nodup)
    (hlen : ∀ gs ∈ seq, gs.length = ps.length)
    (herr : (runSteps sq jit groups seq ps []).error = none) :
    (∀ j, stepCount (runSteps sq jit groups seq ps []).state j =
      procCount groups seq j) ∧
    (∀ j, sdFind (runSteps sq jit groups seq ps []).state j ≠ none ↔
      0 < procCount groups seq j) ∧
    (∀ cfg v, (initState cfg v).step = 0 ∧
      (initState cfg v).square_avg.length = v.length ∧
      (∀ x ∈ (initState cfg v).square_avg, x = 0) ∧
      ((initState cfg v).momentum_buffer ≠ none ↔ 0 < cfg.momentum) ∧
      ((initState cfg v).grad_avg ≠ none ↔ cfg.centered = true) ∧
      (∀ mb ∈ (initState cfg v).momentum_buffer, mb = List.replicate v.length 0) ∧
      (∀ ga ∈ (initState cfg v).grad_avg, ga = List.replicate v.length 0)) := by
  have heff := runSteps_ok_effect sq jit groups hNd seq ps [] hlen herr
  refine ⟨fun j => ?_, fun j => ?_, fun cfg v => ?_⟩
  · rw [(heff j).1, sum_callCount]
    simp [stepCount, sdFind]
  · rw [(heff j).2, sum_callCount]
    simp [sdFind]
  · refine ⟨rfl, by simp [initState], ?_, ?_, ?_, ?_, ?_⟩
    · intro x hx
      simp only [initState] at hx
      exact List.eq_of_mem_replicate hx
    · by_cases h : 0 < cfg.momentum <;> simp [initState, h]
    · cases hc : cfg.centered <;> simp [initState, hc]
    · by_cases h : 0 < cfg.momentum <;> simp [initState, h]
    · cases hc : cfg.centered <;> simp [initState, hc]

/-- Witness for C3: a single-parameter group run for two calls, the first
with a gradient and the second without; the entry exists and its counter is
exactly one. -/
theorem c3_state_invariants_witness :
    stepCount (runSteps (fun q => q) false [⟨cfgW, [0]⟩]
      [[some ⟨[3], false⟩], [none]] [⟨[5], none⟩] []).state 0 =
      procCount [⟨cfgW, [0]⟩] [[some ⟨[3], false⟩], [none]] 0 ∧
    (sdFind (runSteps (fun q => q) false [⟨cfgW, [0]⟩]
      [[some ⟨[3], false⟩], [none]] [⟨[5], none⟩] []).state 0 ≠ none ↔
      0 < procCount [⟨cfgW, [0]⟩] [[some ⟨[3], false⟩], [none]] 0) := by
  have h := c3_state_invariants (fun q => q) false [⟨cfgW, [0]⟩]
    [[some ⟨[3], false⟩], [none]] [⟨[5], none⟩] (by simp)
    (by
      intro gs hgs
      simp only [List.mem_cons, List.mem_singleton, List.not_mem_nil, or_false] at hgs
      rcases hgs with rfl | rfl <;> rfl)
    (by norm_num [runSteps, setGrads, stepOnce, stepGroup, gatherGroup, scatterGroup,
      rmspropFn, cfgW, noParam, fetchOpt, initState, sdFind, sdSet, sdModify,
      _single_tensor_rmsprop, step1, tAddAlpha, tAddcmul, tAddcdiv, tMulS, tAddS, tSqrt,
      List.zipWith3])
  exact ⟨h.1 0, h.2.1 0⟩

end RmspropModel
